import Mathlib

/-!
# tiendaComponentes: the record store of `tienda.cpp`

A shallow embedding of the in-memory store of `tienda.cpp` (the global
collections, the product operations `agregarProducto`, `modificarProducto`,
`eliminarProducto`, the sale entry `agregarVenta`, and the text codec
`guardarInformacion` / `cargarInformacion`), followed by the properties
established about it.

Conventions of the embedding.

* `std::list` and `std::queue` are Lean lists (front of the queue = head).
* `std::map<string, V>` is an association list kept in key order; iteration
  over the map is iteration over that list.
* `std::string` is `String`; `int` is `Int`; `bool` is `Bool`.
* `float` and `double` members are carried as bit patterns (`Flotante`,
  `Doble`); the three floating-point operations the program performs on them
  (the product `int * float`, stream insertion and stream extraction) are
  parameters of the definitions that use them (`Numerico`).
* A scalar member of a default-initialised local (`Producto producto;`) has an
  indeterminate value; those values are the parameter `Indeterminado`.
* Console input is the sequence of values the reads deliver, console output
  the list of texts written to `cout`. An operation whose read loop runs out
  of input does not return: its result is `none`.
-/

namespace TiendaComponentes

/-! ## Data model (tienda.cpp, lines 36-115) -/

/-- A `float` member, as its bit pattern. -/
structure Flotante where
  bits : Nat
deriving DecidableEq, Repr

/-- A `double` member, as its bit pattern. -/
structure Doble where
  bits : Nat
deriving DecidableEq, Repr

/-- The record `struct Vendedor`. -/
structure Vendedor where
  id : Int
  nombre : String
  apellido : String
  telefono : String
  correo : String
  direccion : String
  salario : Flotante
  ventas_realizadas : Doble
deriving DecidableEq, Repr

/-- The record `struct Cliente`. -/
structure Cliente where
  id : Int
  nombre : String
  apellido : String
  telefono : String
  correo : String
  direccion : String
  nit : String
deriving DecidableEq, Repr

/-- The record `struct Proveedor`. -/
structure Proveedor where
  id : Int
  nombre : String
  telefono : String
  correo : String
  tipo : String
deriving DecidableEq, Repr

/-- The record `struct Producto`. -/
structure Producto where
  codigo : String
  nombre : String
  precio : Flotante
  cantidad : Int
  descripcion : String
  categoria : String
  proveedor : Proveedor
  estado : Bool
deriving DecidableEq, Repr

/-- The record `struct Venta`. -/
structure Venta where
  nro_venta : Int
  fecha : String
  cliente : Cliente
  total : Flotante
  vendedor : Vendedor
deriving DecidableEq, Repr

/-- The record `struct DetalleVenta`. -/
structure DetalleVenta where
  nro_detalle : Int
  venta : Venta
  producto : Producto
  cantidad : Int
  subtotal : Flotante
deriving DecidableEq, Repr

/-- The indeterminate values held by the scalar members of default-initialised
locals that the program never assigns before use. -/
structure Indeterminado where
  idProveedor : Int
  idCliente : Int
  idVendedor : Int
  salario : Flotante
  ventas_realizadas : Doble
deriving DecidableEq, Repr

/-- The value of `Proveedor proveedor;`: empty strings, indeterminate `id`. -/
def Proveedor.inicial (u : Indeterminado) : Proveedor :=
  { id := u.idProveedor, nombre := "", telefono := "", correo := "", tipo := "" }

/-- The value of `Cliente cliente;`: empty strings, indeterminate `id`. -/
def Cliente.inicial (u : Indeterminado) : Cliente :=
  { id := u.idCliente, nombre := "", apellido := "", telefono := "", correo := "",
    direccion := "", nit := "" }

/-- The value of `Vendedor vendedor;`: empty strings, indeterminate scalars. -/
def Vendedor.inicial (u : Indeterminado) : Vendedor :=
  { id := u.idVendedor, nombre := "", apellido := "", telefono := "", correo := "",
    direccion := "", salario := u.salario, ventas_realizadas := u.ventas_realizadas }

/-! ## `std::map<std::string, V>` -/

/-- The order of `std::less<std::string>`: character by character, a proper
prefix first. -/
def menorLista : List Char → List Char → Bool
  | _, [] => false
  | [], _ :: _ => true
  | a :: as, b :: bs =>
    if a.toNat < b.toNat then true
    else if a.toNat = b.toNat then menorLista as bs
    else false

/-- Key order of the maps. -/
def menor (a b : String) : Bool := menorLista a.data b.data

/-- A `std::map<std::string, V>`: its entries in iteration order. -/
abbrev Mapa (V : Type) := List (String × V)

/-- The lookup `m.find(k)`: the mapped value, `none` for `m.end()`. -/
def Mapa.buscar {V : Type} (k : String) : Mapa V → Option V
  | [] => none
  | (k', v) :: m => if k' = k then some v else Mapa.buscar k m

/-- Whether `m.find(k) != m.end()`. -/
def Mapa.contiene {V : Type} (k : String) (m : Mapa V) : Bool :=
  (Mapa.buscar k m).isSome

/-- Insertion of a key that the map does not hold, at its place in key order. -/
def Mapa.insertar {V : Type} (k : String) (v : V) : Mapa V → Mapa V
  | [] => [(k, v)]
  | (k', v') :: m =>
    if menor k k' then (k, v) :: (k', v') :: m else (k', v') :: Mapa.insertar k v m

/-- Overwrites the value mapped to a key that the map holds. -/
def Mapa.reemplazar {V : Type} (k : String) (v : V) : Mapa V → Mapa V
  | [] => []
  | (k', v') :: m =>
    if k' = k then (k', v) :: m else (k', v') :: Mapa.reemplazar k v m

/-- The assignment `m[k] = v`. -/
def Mapa.asignar {V : Type} (k : String) (v : V) (m : Mapa V) : Mapa V :=
  if Mapa.contiene k m then Mapa.reemplazar k v m else Mapa.insertar k v m

/-- The list read through `m[k]`: the mapped list, empty for a key the map
does not hold yet. -/
def Mapa.obtener {V : Type} (k : String) (m : Mapa (List V)) : List V :=
  (Mapa.buscar k m).getD []

/-- The statement `m.erase(k)`. -/
def Mapa.borrar {V : Type} (k : String) (m : Mapa V) : Mapa V :=
  m.filter (fun kv => decide (kv.1 ≠ k))

/-- The keys in iteration order. -/
def Mapa.claves {V : Type} (m : Mapa V) : List String := m.map Prod.fst

/-! ## The store (tienda.cpp, lines 104-115) -/

/-- The global collections. -/
structure Tienda where
  productos : List Producto
  productos_codigo : Mapa Producto
  productos_categoria : Mapa (List Producto)
  proveedores : List Proveedor
  vendedores : List Vendedor
  vendedores_nuevos : List Vendedor
  clientes : List Cliente
  clientes_nuevos : List Cliente
  clientes_pila : List Cliente
  ventas : List Venta
  detalles_ventas : List DetalleVenta
deriving DecidableEq, Repr

/-- The store at program start, before anything is loaded. -/
def Tienda.vacia : Tienda :=
  { productos := [], productos_codigo := [], productos_categoria := [],
    proveedores := [], vendedores := [], vendedores_nuevos := [], clientes := [],
    clientes_nuevos := [], clientes_pila := [], ventas := [], detalles_ventas := [] }

/-! ## `agregarProducto` (tienda.cpp, lines 295-348) -/

/-- What the operator enters for `agregarProducto`: the successive values read
into `producto.codigo` by the retry loop, then the remaining fields. -/
structure EntradaProducto where
  codigos : List String
  nombre : String
  precio : Flotante
  cantidad : Int
  descripcion : String
  categoria : String
  estado : Bool
  id_proveedor : Int
deriving DecidableEq, Repr

/-- The text written for a code that is already indexed. -/
def avisoCodigoExiste : String :=
  "El código del producto ya existe. Ingrese un nuevo código: "

/-- The `do ... while` of lines 302-308: reads codes until one is not a key of
the index; yields that code and the texts written for the rejected ones. -/
def leerCodigo (idx : Mapa Producto) : List String → Option (String × List String)
  | [] => none
  | c :: resto =>
    if Mapa.contiene c idx then
      match leerCodigo idx resto with
      | none => none
      | some (aceptado, avisos) => some (aceptado, avisoCodigoExiste :: avisos)
    else some (c, [])

/-- The `while (!proveedores.empty())` of lines 336-343: `cola` is what is left
of `proveedores`, `aux` is `proveedores_aux`, `prov` is `producto.proveedor`. -/
def escanearProveedores (id_proveedor : Int) :
    List Proveedor → List Proveedor → Proveedor → List Proveedor × Proveedor
  | [], aux, prov => (aux, prov)
  | proveedor :: cola, aux, prov =>
    escanearProveedores id_proveedor cola (aux ++ [proveedor])
      (if proveedor.id = id_proveedor then proveedor else prov)

/-- The record `producto` as it stands at line 345, for the accepted code. -/
def productoNuevo (u : Indeterminado) (s : Tienda) (e : EntradaProducto)
    (codigo : String) : Producto :=
  { codigo := codigo, nombre := e.nombre, precio := e.precio, cantidad := e.cantidad,
    descripcion := e.descripcion, categoria := e.categoria,
    proveedor := (escanearProveedores e.id_proveedor s.proveedores []
      (Proveedor.inicial u)).2,
    estado := e.estado }

/-- The function `agregarProducto`. -/
def agregarProducto (u : Indeterminado) (s : Tienda) (e : EntradaProducto) :
    Option (Tienda × List String) :=
  match leerCodigo s.productos_codigo e.codigos with
  | none => none
  | some (codigo, avisos) =>
    let producto := productoNuevo u s e codigo
    let proveedores_aux :=
      (escanearProveedores e.id_proveedor s.proveedores [] (Proveedor.inicial u)).1
    some ({ s with
        proveedores := proveedores_aux
        productos := s.productos ++ [producto]
        productos_codigo := Mapa.asignar producto.codigo producto s.productos_codigo
        productos_categoria :=
          Mapa.asignar producto.categoria
            (Mapa.obtener producto.categoria s.productos_categoria ++ [producto])
            s.productos_categoria },
      ["Ingrese el código del producto: "] ++ avisos ++
      ["Ingrese el nombre del producto: ", "Ingrese el precio del producto: ",
       "Ingrese la cantidad del producto: ", "Ingrese la descripción del producto: ",
       "Ingrese la categoría del producto: ", "Ingrese el estado del producto: ",
       "Ingrese el id del proveedor: "])

/-! ## `modificarProducto` (tienda.cpp, lines 350-397) -/

/-- What the operator enters for `modificarProducto`. -/
structure EntradaModificar where
  codigo : String
  nombre : String
  precio : Flotante
  cantidad : Int
  descripcion : String
  categoria : String
  estado : Bool
deriving DecidableEq, Repr

/-- The text written when the code is not indexed. -/
def avisoNoExiste : String := "El producto no existe.\n"

/-- The loop of lines 371-377: each record with the code is replaced. -/
def sustituir (codigo : String) (producto : Producto) (l : List Producto) :
    List Producto :=
  l.map (fun q => if q.codigo = codigo then producto else q)

/-- The loop of lines 380-392: the value of `productos_categoria_aux` after
the pass over all the entries of the map. The list is declared once, before
the loop: the branch of the matching key appends to it, the other branch
overwrites it. -/
def auxModificar (codigo : String) (producto : Producto)
    (m : Mapa (List Producto)) : List Producto :=
  m.foldl (fun aux kv =>
    if kv.1 = producto.categoria then aux ++ sustituir codigo producto kv.2
    else kv.2) []

/-- The record `producto` of lines 356-368: the indexed record `it->second`
with the six entered fields read over it. -/
def productoModificado (hallado : Producto) (e : EntradaModificar) : Producto :=
  { hallado with nombre := e.nombre, precio := e.precio, cantidad := e.cantidad,
                 descripcion := e.descripcion, categoria := e.categoria,
                 estado := e.estado }

/-- The function `modificarProducto`. -/
def modificarProducto (s : Tienda) (e : EntradaModificar) : Tienda × List String :=
  match Mapa.buscar e.codigo s.productos_codigo with
  | some hallado =>
    let producto : Producto := productoModificado hallado e
    ({ s with
        productos_codigo := Mapa.asignar e.codigo producto s.productos_codigo
        productos := sustituir e.codigo producto s.productos
        productos_categoria :=
          Mapa.asignar producto.categoria
            (auxModificar e.codigo producto s.productos_categoria)
            s.productos_categoria },
      ["Ingrese el código del producto a modificar: ",
       "Ingrese el nuevo nombre del producto: ", "Ingrese el nuevo precio del producto: ",
       "Ingrese la nueva cantidad del producto: ",
       "Ingrese la nueva descripción del producto: ",
       "Ingrese la nueva categoría del producto: ",
       "Ingrese el nuevo estado del producto: "])
  | none => (s, ["Ingrese el código del producto a modificar: ", avisoNoExiste])

/-! ## `eliminarProducto` (tienda.cpp, lines 399-430) -/

/-- The loop of lines 408-412: the records with another code are kept. -/
def quitar (codigo : String) (l : List Producto) : List Producto :=
  l.filter (fun q => decide (q.codigo ≠ codigo))

/-- The loop of lines 415-425: the value of `productos_categoria_aux` after
the pass over all the entries of the map. -/
def auxEliminar (codigo : String) (categoria : String)
    (m : Mapa (List Producto)) : List Producto :=
  m.foldl (fun aux kv =>
    if kv.1 = categoria then aux ++ quitar codigo kv.2
    else kv.2) []

/-- The function `eliminarProducto`. -/
def eliminarProducto (s : Tienda) (codigo : String) : Tienda × List String :=
  match Mapa.buscar codigo s.productos_codigo with
  | some producto =>
    ({ s with
        productos_codigo := Mapa.borrar codigo s.productos_codigo
        productos := quitar codigo s.productos
        productos_categoria :=
          Mapa.asignar producto.categoria
            (auxEliminar codigo producto.categoria s.productos_categoria)
            s.productos_categoria },
      ["Ingrese el código del producto a eliminar: "])
  | none => (s, ["Ingrese el código del producto a eliminar: ", avisoNoExiste])

/-! ## `agregarVenta` (tienda.cpp, lines 512-571) -/

/-- The floating-point operations of the program, which the embedding does not
compute: the product `int * float` of line 565, and the stream insertion and
extraction of `float` and `double` values used by the text codec (extraction
is given the stream after the leading whitespace has been skipped and yields
the value with the unread rest of the stream). -/
structure Numerico where
  mul : Int → Flotante → Flotante
  escribirFlotante : Flotante → List Char
  leerFlotante : List Char → Option (Flotante × List Char)
  escribirDoble : Doble → List Char
  leerDoble : List Char → Option (Doble × List Char)

/-- What the operator enters in one pass of the line-item loop. -/
structure EntradaRenglon where
  codigo : String
  cantidad : Int
  opcion : Int
deriving DecidableEq, Repr

/-- What the operator enters for `agregarVenta`. -/
structure EntradaVenta where
  nro_venta : Int
  fecha : String
  nombre_cliente : String
  total : Flotante
  nombre_vendedor : String
  renglones : List EntradaRenglon
deriving DecidableEq, Repr

/-- The `do ... while (opcion != 0)` of lines 547-570: `nro_detalle` is the
counter, `detalles` is `detalles_ventas`. Yields the final `detalles_ventas`
and the texts written. -/
def leerRenglones (num : Numerico) (venta : Venta) (productos : List Producto) :
    List EntradaRenglon → Int → List DetalleVenta →
      Option (List DetalleVenta × List String)
  | [], _, _ => none
  | r :: resto, nro_detalle, detalles =>
    match productos.find? (fun producto => decide (producto.codigo = r.codigo)) with
    | none => some (detalles, ["Ingrese el código del producto: ", avisoNoExiste])
    | some producto =>
      let detalle_venta : DetalleVenta :=
        { nro_detalle := nro_detalle, venta := venta, producto := producto,
          cantidad := r.cantidad, subtotal := num.mul r.cantidad producto.precio }
      let escrito := ["Ingrese el código del producto: ",
        "Ingrese la cantidad del producto: ",
        "Desea agregar otro producto a la venta? (1. Sí, 0. No): "]
      if r.opcion ≠ 0 then
        match leerRenglones num venta productos resto (nro_detalle + 1)
            (detalles ++ [detalle_venta]) with
        | none => none
        | some (finales, salida) => some (finales, escrito ++ salida)
      else some (detalles ++ [detalle_venta], escrito)

/-- The function `agregarVenta`. -/
def agregarVenta (num : Numerico) (s : Tienda) (e : EntradaVenta) :
    Option (Tienda × List String) :=
  match s.clientes.find? (fun cliente => decide (cliente.nombre = e.nombre_cliente)) with
  | none =>
    some (s, ["Ingrese el número de venta: ", "Ingrese la fecha de la venta: ",
      "Ingrese el nombre del cliente: ", "El cliente no existe.\n"])
  | some cliente =>
    match s.vendedores.find?
        (fun vendedor => decide (vendedor.nombre = e.nombre_vendedor)) with
    | none =>
      some (s, ["Ingrese el número de venta: ", "Ingrese la fecha de la venta: ",
        "Ingrese el nombre del cliente: ", "Ingrese el total de la venta: ",
        "Ingrese el nombre del vendedor: ", "El vendedor no existe.\n"])
    | some vendedor =>
      let venta : Venta :=
        { nro_venta := e.nro_venta, fecha := e.fecha, cliente := cliente,
          total := e.total, vendedor := vendedor }
      match leerRenglones num venta s.productos e.renglones 1 s.detalles_ventas with
      | none => none
      | some (detalles, salida) =>
        some ({ s with ventas := s.ventas ++ [venta], detalles_ventas := detalles },
          ["Ingrese el número de venta: ", "Ingrese la fecha de la venta: ",
           "Ingrese el nombre del cliente: ", "Ingrese el total de la venta: ",
           "Ingrese el nombre del vendedor: "] ++ salida)

/-! ## Text streams (`operator<<` and `operator>>` on files) -/

/-- The characters that `std::isspace` accepts in the classic locale, which
formatted extraction skips and which end a string extraction. -/
def esEspacio (c : Char) : Bool :=
  decide (c = ' ' ∨ c = '\t' ∨ c = '\n' ∨ c = '\x0b' ∨ c = '\x0c' ∨ c = '\r')

/-- The decimal digits. -/
def esDigito (c : Char) : Bool := decide (48 ≤ c.toNat ∧ c.toNat ≤ 57)

/-- The whitespace skip that opens every formatted extraction. -/
def saltarEspacios (s : List Char) : List Char := s.dropWhile esEspacio

/-- The extraction `is >> cadena` of a `std::string`: fails at end of stream,
else takes the characters up to the next whitespace. Yields the value and
the unread rest of the stream. -/
def leerCadena (s : List Char) : Option (String × List Char) :=
  match saltarEspacios s with
  | [] => none
  | c :: resto =>
    some (String.mk (c :: resto.takeWhile (fun x => !esEspacio x)),
      resto.dropWhile (fun x => !esEspacio x))

/-- The value of a run of decimal digits. -/
def valorDigitos (ds : List Char) : Nat :=
  ds.foldl (fun a c => 10 * a + (c.toNat - 48)) 0

/-- A run of decimal digits, at least one: its value and the unread rest. -/
def leerDigitos (s : List Char) : Option (Nat × List Char) :=
  if (s.takeWhile esDigito).isEmpty then none
  else some (valorDigitos (s.takeWhile esDigito), s.dropWhile esDigito)

/-- The integer field that numeric extraction parses: an optional sign and a
run of decimal digits, at least one. -/
def leerNumero (s : List Char) : Option (Int × List Char) :=
  match saltarEspacios s with
  | [] => none
  | c :: resto =>
    if c = '-' then
      match leerDigitos resto with
      | none => none
      | some (n, r) => some (-(n : Int), r)
    else if c = '+' then
      match leerDigitos resto with
      | none => none
      | some (n, r) => some ((n : Int), r)
    else
      match leerDigitos (c :: resto) with
      | none => none
      | some (n, r) => some ((n : Int), r)

/-- The values of a 32-bit `int`. -/
def enRangoInt (n : Int) : Bool := decide (-2147483648 ≤ n ∧ n ≤ 2147483647)

/-- The extraction `is >> n` of an `int`: fails when no number is read or when
the number is not a value of `int`. -/
def leerEntero (s : List Char) : Option (Int × List Char) :=
  match leerNumero s with
  | none => none
  | some (n, resto) => if enRangoInt n then some (n, resto) else none

/-- The extraction `is >> b` of a `bool` (no `boolalpha`): the number read must
be 0 or 1. -/
def leerBool (s : List Char) : Option (Bool × List Char) :=
  match leerNumero s with
  | none => none
  | some (n, resto) =>
    if n = 0 then some (false, resto)
    else if n = 1 then some (true, resto)
    else none

/-- The extraction of a `float`: whitespace skip, then the parameter. -/
def leerFlotante (num : Numerico) (s : List Char) : Option (Flotante × List Char) :=
  num.leerFlotante (saltarEspacios s)

/-- The extraction of a `double`: whitespace skip, then the parameter. -/
def leerDoble (num : Numerico) (s : List Char) : Option (Doble × List Char) :=
  num.leerDoble (saltarEspacios s)

/-- The decimal digits of `n`, most significant first, prepended to `acc`;
`combustible` bounds the number of digits. -/
def digitosDe : Nat → Nat → List Char → List Char
  | 0, _, acc => acc
  | combustible + 1, n, acc =>
    if n / 10 = 0 then Nat.digitChar (n % 10) :: acc
    else digitosDe combustible (n / 10) (Nat.digitChar (n % 10) :: acc)

/-- The insertion `os << n` of a natural number. -/
def escribirNat (n : Nat) : List Char := digitosDe (n + 1) n []

/-- The insertion `os << n` of an `int`. -/
def escribirEntero (n : Int) : List Char :=
  if n < 0 then '-' :: escribirNat n.natAbs else escribirNat n.natAbs

/-- The insertion `os << b` of a `bool` (no `boolalpha`). -/
def escribirBool (b : Bool) : List Char := if b then ['1'] else ['0']

/-! ## `guardarInformacion` (tienda.cpp, lines 713-746) -/

/-- The five text files; `none` is a file that cannot be opened. -/
structure Archivos where
  productos : Option (List Char)
  clientes : Option (List Char)
  ventas : Option (List Char)
  vendedores : Option (List Char)
  proveedores : Option (List Char)
deriving DecidableEq, Repr

/-- The line of line 717. -/
def lineaProducto (num : Numerico) (p : Producto) : List Char :=
  p.codigo.data ++ [' '] ++ p.nombre.data ++ [' '] ++ num.escribirFlotante p.precio ++
  [' '] ++ escribirEntero p.cantidad ++ [' '] ++ p.descripcion.data ++ [' '] ++
  p.categoria.data ++ [' '] ++ p.proveedor.nombre.data ++ [' '] ++
  escribirBool p.estado ++ ['\n']

/-- The line of line 723. -/
def lineaCliente (c : Cliente) : List Char :=
  c.nombre.data ++ [' '] ++ c.apellido.data ++ [' '] ++ c.telefono.data ++ [' '] ++
  c.correo.data ++ [' '] ++ c.direccion.data ++ [' '] ++ c.nit.data ++ ['\n']

/-- The line of line 729. -/
def lineaVenta (num : Numerico) (v : Venta) : List Char :=
  escribirEntero v.nro_venta ++ [' '] ++ v.fecha.data ++ [' '] ++
  v.cliente.nombre.data ++ [' '] ++ num.escribirFlotante v.total ++ [' '] ++
  v.vendedor.nombre.data ++ ['\n']

/-- The line of line 735. -/
def lineaVendedor (num : Numerico) (v : Vendedor) : List Char :=
  v.nombre.data ++ [' '] ++ v.apellido.data ++ [' '] ++ v.telefono.data ++ [' '] ++
  v.correo.data ++ [' '] ++ v.direccion.data ++ [' '] ++
  num.escribirFlotante v.salario ++ [' '] ++ num.escribirDoble v.ventas_realizadas ++
  ['\n']

/-- The line of line 742. -/
def lineaProveedor (p : Proveedor) : List Char :=
  escribirEntero p.id ++ [' '] ++ p.nombre.data ++ [' '] ++ p.telefono.data ++ [' '] ++
  p.correo.data ++ ['\n']

/-- The loop of lines 740-744: writes the front supplier and pops it, until
the queue is empty. Yields the emptied queue and the text written. -/
def vaciarProveedores : List Proveedor → List Char → List Proveedor × List Char
  | [], texto => ([], texto)
  | proveedor :: cola, texto => vaciarProveedores cola (texto ++ lineaProveedor proveedor)

/-- The function `guardarInformacion`: the store it leaves and the files it
writes. -/
def guardarInformacion (num : Numerico) (s : Tienda) : Tienda × Archivos :=
  ({ s with proveedores := (vaciarProveedores s.proveedores []).1 },
   { productos := some (s.productos.flatMap (lineaProducto num))
     clientes := some (s.clientes.flatMap lineaCliente)
     ventas := some (s.ventas.flatMap (lineaVenta num))
     vendedores := some (s.vendedores.flatMap (lineaVendedor num))
     proveedores := some (vaciarProveedores s.proveedores []).2 })

/-! ## `cargarInformacion` (tienda.cpp, lines 657-709) -/

/-- The loop `while (archivo >> campo >> ... ) { push }`: `leer` is one pass of
the condition, the extraction of the fields of one record. The loop ends at
the first pass that fails. The bound on the passes is the length of the
stream, of which every successful pass eats at least one character. -/
def leerRegistros {α : Type} (leer : List Char → Option (α × List Char)) :
    Nat → List Char → List α
  | 0, _ => []
  | pasos + 1, s =>
    match leer s with
    | none => []
    | some (x, resto) => x :: leerRegistros leer pasos resto

/-- The condition of line 662, on the local `Producto producto;`. -/
def leerProducto (num : Numerico) (u : Indeterminado) (s : List Char) :
    Option (Producto × List Char) :=
  match leerCadena s with
  | none => none
  | some (codigo, s1) =>
  match leerCadena s1 with
  | none => none
  | some (nombre, s2) =>
  match leerFlotante num s2 with
  | none => none
  | some (precio, s3) =>
  match leerEntero s3 with
  | none => none
  | some (cantidad, s4) =>
  match leerCadena s4 with
  | none => none
  | some (descripcion, s5) =>
  match leerCadena s5 with
  | none => none
  | some (categoria, s6) =>
  match leerCadena s6 with
  | none => none
  | some (nombreProveedor, s7) =>
  match leerBool s7 with
  | none => none
  | some (estado, s8) =>
    some ({ codigo := codigo, nombre := nombre, precio := precio, cantidad := cantidad,
            descripcion := descripcion, categoria := categoria,
            proveedor := { Proveedor.inicial u with nombre := nombreProveedor },
            estado := estado }, s8)

/-- The condition of line 674, on the local `Cliente cliente;`. -/
def leerCliente (u : Indeterminado) (s : List Char) : Option (Cliente × List Char) :=
  match leerCadena s with
  | none => none
  | some (nombre, s1) =>
  match leerCadena s1 with
  | none => none
  | some (apellido, s2) =>
  match leerCadena s2 with
  | none => none
  | some (telefono, s3) =>
  match leerCadena s3 with
  | none => none
  | some (correo, s4) =>
  match leerCadena s4 with
  | none => none
  | some (direccion, s5) =>
  match leerCadena s5 with
  | none => none
  | some (nit, s6) =>
    some ({ Cliente.inicial u with
              nombre := nombre, apellido := apellido, telefono := telefono,
              correo := correo, direccion := direccion, nit := nit }, s6)

/-- The condition of line 684, on the local `Venta venta;`. -/
def leerVenta (num : Numerico) (u : Indeterminado) (s : List Char) :
    Option (Venta × List Char) :=
  match leerEntero s with
  | none => none
  | some (nro_venta, s1) =>
  match leerCadena s1 with
  | none => none
  | some (fecha, s2) =>
  match leerCadena s2 with
  | none => none
  | some (nombreCliente, s3) =>
  match leerFlotante num s3 with
  | none => none
  | some (total, s4) =>
  match leerCadena s4 with
  | none => none
  | some (nombreVendedor, s5) =>
    some ({ nro_venta := nro_venta, fecha := fecha,
            cliente := { Cliente.inicial u with nombre := nombreCliente },
            total := total,
            vendedor := { Vendedor.inicial u with nombre := nombreVendedor } }, s5)

/-- The condition of line 694, on the local `Vendedor vendedor;`. -/
def leerVendedor (num : Numerico) (u : Indeterminado) (s : List Char) :
    Option (Vendedor × List Char) :=
  match leerCadena s with
  | none => none
  | some (nombre, s1) =>
  match leerCadena s1 with
  | none => none
  | some (apellido, s2) =>
  match leerCadena s2 with
  | none => none
  | some (telefono, s3) =>
  match leerCadena s3 with
  | none => none
  | some (correo, s4) =>
  match leerCadena s4 with
  | none => none
  | some (direccion, s5) =>
  match leerFlotante num s5 with
  | none => none
  | some (salario, s6) =>
  match leerDoble num s6 with
  | none => none
  | some (ventas_realizadas, s7) =>
    some ({ Vendedor.inicial u with
              nombre := nombre, apellido := apellido, telefono := telefono,
              correo := correo, direccion := direccion, salario := salario,
              ventas_realizadas := ventas_realizadas }, s7)

/-- The condition of line 704, on the local `Proveedor proveedor;`. -/
def leerProveedor (u : Indeterminado) (s : List Char) : Option (Proveedor × List Char) :=
  match leerEntero s with
  | none => none
  | some (id, s1) =>
  match leerCadena s1 with
  | none => none
  | some (nombre, s2) =>
  match leerCadena s2 with
  | none => none
  | some (telefono, s3) =>
  match leerCadena s3 with
  | none => none
  | some (correo, s4) =>
    some ({ Proveedor.inicial u with
              id := id, nombre := nombre, telefono := telefono, correo := correo }, s4)

/-- The records that the read loop of a file pushes, in order; none for a file
that cannot be opened. -/
def registrosDe {α : Type} (leer : List Char → Option (α × List Char)) :
    Option (List Char) → List α
  | none => []
  | some texto => leerRegistros leer texto.length texto

/-- The body of the loop of lines 663-665 for one record read. -/
def cargarProducto (s : Tienda) (producto : Producto) : Tienda :=
  { s with
      productos := s.productos ++ [producto]
      productos_codigo := Mapa.asignar producto.codigo producto s.productos_codigo
      productos_categoria :=
        Mapa.asignar producto.categoria
          (Mapa.obtener producto.categoria s.productos_categoria ++ [producto])
          s.productos_categoria }

/-- The function `cargarInformacion`. -/
def cargarInformacion (num : Numerico) (u : Indeterminado) (archivos : Archivos)
    (s : Tienda) : Tienda :=
  let s1 := (registrosDe (leerProducto num u) archivos.productos).foldl cargarProducto s
  { s1 with
      clientes := s1.clientes ++ registrosDe (leerCliente u) archivos.clientes
      ventas := s1.ventas ++ registrosDe (leerVenta num u) archivos.ventas
      vendedores := s1.vendedores ++ registrosDe (leerVendedor num u) archivos.vendedores
      proveedores := s1.proveedores ++ registrosDe (leerProveedor u) archivos.proveedores }

/-! ## Observations on the product structures -/

/-- The codes of the canonical list `productos`, in list order. -/
def codigosLista (s : Tienda) : List String :=
  s.productos.map (fun p => p.codigo)

/-- The keys of the code index `productos_codigo`. -/
def codigosIndice (s : Tienda) : List String :=
  Mapa.claves s.productos_codigo

/-- The codes of the records held by the buckets of `productos_categoria`,
bucket after bucket. -/
def codigosCategorias (s : Tienda) : List String :=
  (s.productos_categoria.flatMap Prod.snd).map (fun p => p.codigo)

/-- The categories whose bucket holds the record `p`. -/
def categoriasCon (p : Producto) (s : Tienda) : List String :=
  (s.productos_categoria.filter (fun kv => decide (p ∈ kv.2))).map Prod.fst

/-- The three code sets coincide. -/
def MismosCodigos (s : Tienda) : Prop :=
  ∀ c : String, (c ∈ codigosLista s ↔ c ∈ codigosIndice s) ∧
    (c ∈ codigosIndice s ↔ c ∈ codigosCategorias s)

/-- The code index agrees with the canonical list: distinct codes in the list,
distinct keys in the index, the same codes on both sides, and under each code
the record of the list. -/
def IndiceFiel (s : Tienda) : Prop :=
  (codigosLista s).Nodup ∧ (codigosIndice s).Nodup ∧
  (∀ c : String, c ∈ codigosIndice s ↔ ∃ p ∈ s.productos, p.codigo = c) ∧
  (∀ p ∈ s.productos, Mapa.buscar p.codigo s.productos_codigo = some p)

/-- The stores reached from a store without products by `agregarProducto`,
`modificarProducto` and `eliminarProducto`. -/
inductive Alcanzable : Tienda → Prop
  | inicio (s : Tienda) (h1 : s.productos = []) (h2 : s.productos_codigo = [])
      (h3 : s.productos_categoria = []) : Alcanzable s
  | crear (u : Indeterminado) (e : EntradaProducto) (s s' : Tienda)
      (salida : List String) (h : Alcanzable s)
      (hop : agregarProducto u s e = some (s', salida)) : Alcanzable s'
  | modificar (e : EntradaModificar) (s : Tienda) (h : Alcanzable s) :
      Alcanzable (modificarProducto s e).1
  | eliminar (codigo : String) (s : Tienda) (h : Alcanzable s) :
      Alcanzable (eliminarProducto s codigo).1

/-! ## Concrete inputs -/

/-- Indeterminate values used in the examples. -/
def ejIndeterminado : Indeterminado :=
  { idProveedor := 77, idCliente := 78, idVendedor := 79, salario := ⟨5⟩,
    ventas_realizadas := ⟨6⟩ }

/-- The supplier `1 Acme`. -/
def ejAcme : Proveedor :=
  { id := 1, nombre := "Acme", telefono := "555", correo := "a@acme", tipo := "" }

/-- The supplier `2 Bolt`. -/
def ejBolt : Proveedor :=
  { id := 2, nombre := "Bolt", telefono := "777", correo := "b@bolt", tipo := "" }

/-- A store without products whose supplier queue holds Acme, then Bolt. -/
def ejInicio : Tienda :=
  { Tienda.vacia with proveedores := [ejAcme, ejBolt] }

/-- Entry of a product with one code, one category and supplier id 1. -/
def ejEntrada (codigos : List String) (categoria : String) : EntradaProducto :=
  { codigos := codigos, nombre := "pieza", precio := ⟨10⟩, cantidad := 3,
    descripcion := "", categoria := categoria, estado := true, id_proveedor := 1 }

/-- The record created from `ejEntrada [codigo] categoria` in `ejInicio`. -/
def ejProducto (codigo categoria : String) : Producto :=
  { codigo := codigo, nombre := "pieza", precio := ⟨10⟩, cantidad := 3,
    descripcion := "", categoria := categoria, proveedor := ejAcme, estado := true }

/-- The store after creating `P100` in category `CPU`. -/
def ejP100 : Tienda :=
  { ejInicio with
      productos := [ejProducto "P100" "CPU"]
      productos_codigo := [("P100", ejProducto "P100" "CPU")]
      productos_categoria := [("CPU", [ejProducto "P100" "CPU"])] }

/-- The texts written by `agregarProducto` when `n` codes are rejected. -/
def ejSalida (n : Nat) : List String :=
  ["Ingrese el código del producto: "] ++ List.replicate n avisoCodigoExiste ++
  ["Ingrese el nombre del producto: ", "Ingrese el precio del producto: ",
   "Ingrese la cantidad del producto: ", "Ingrese la descripción del producto: ",
   "Ingrese la categoría del producto: ", "Ingrese el estado del producto: ",
   "Ingrese el id del proveedor: "]

/-- The store after creating `P100` in `CPU`, then `P200` in `GPU`. -/
def ejDos : Tienda :=
  { ejInicio with
      productos := [ejProducto "P100" "CPU", ejProducto "P200" "GPU"]
      productos_codigo :=
        [("P100", ejProducto "P100" "CPU"), ("P200", ejProducto "P200" "GPU")]
      productos_categoria :=
        [("CPU", [ejProducto "P100" "CPU"]), ("GPU", [ejProducto "P200" "GPU"])] }

/-- A stand-in for the floating-point operations, used to evaluate the
definitions on examples: a value is written as the decimal numeral of its bit
pattern and read back from such a numeral. -/
def ejNumerico : Numerico :=
  { mul := fun n x => ⟨n.natAbs * x.bits⟩
    escribirFlotante := fun x => escribirNat x.bits
    leerFlotante := fun s =>
      match leerDigitos s with
      | none => none
      | some (n, r) => some (⟨n⟩, r)
    escribirDoble := fun x => escribirNat x.bits
    leerDoble := fun s =>
      match leerDigitos s with
      | none => none
      | some (n, r) => some (⟨n⟩, r) }

/-- The customer Ana Paz. -/
def ejAna : Cliente :=
  { id := 78, nombre := "Ana", apellido := "Paz", telefono := "555", correo := "a@b",
    direccion := "Sur", nit := "123" }

/-- A customer whose surname is the empty string. -/
def ejSinApellido : Cliente :=
  { id := 78, nombre := "Eva", apellido := "", telefono := "556", correo := "e@b",
    direccion := "Sur", nit := "124" }

/-- The seller Luis Roca. -/
def ejLuis : Vendedor :=
  { id := 79, nombre := "Luis", apellido := "Roca", telefono := "600", correo := "l@b",
    direccion := "Norte", salario := ⟨1200⟩, ventas_realizadas := ⟨0⟩ }

/-- A store with two products, one customer and one seller. -/
def ejTienda : Tienda :=
  { ejDos with clientes := [ejAna], vendedores := [ejLuis] }

/-! ## What the text format carries -/

/-- No character of the string is whitespace. -/
def sinEspacios (t : String) : Bool := t.data.all (fun c => !esEspacio c)

/-- A non-empty string without whitespace. -/
def esPalabra (t : String) : Bool := !t.data.isEmpty && sinEspacios t

/-- The text written for the `float` `x` is read back as `x` when it stands
after a separator and before whitespace. -/
def FlotanteLegible (num : Numerico) (x : Flotante) : Prop :=
  ∀ (c : Char) (resto : List Char), esEspacio c = true →
    leerFlotante num (' ' :: (num.escribirFlotante x ++ c :: resto)) = some (x, c :: resto)

/-- The text written for the `double` `x` is read back as `x` when it stands
after a separator and before whitespace. -/
def DobleLegible (num : Numerico) (x : Doble) : Prop :=
  ∀ (c : Char) (resto : List Char), esEspacio c = true →
    leerDoble num (' ' :: (num.escribirDoble x ++ c :: resto)) = some (x, c :: resto)

/-- Every written field of the product is a word, a value of `int`, or a
`float` whose text reads back. -/
def ProductoLegible (num : Numerico) (p : Producto) : Prop :=
  esPalabra p.codigo = true ∧ esPalabra p.nombre = true ∧ FlotanteLegible num p.precio ∧
  enRangoInt p.cantidad = true ∧ esPalabra p.descripcion = true ∧
  esPalabra p.categoria = true ∧ esPalabra p.proveedor.nombre = true

/-- Every written field of the customer is a word. -/
def ClienteLegible (c : Cliente) : Prop :=
  esPalabra c.nombre = true ∧ esPalabra c.apellido = true ∧ esPalabra c.telefono = true ∧
  esPalabra c.correo = true ∧ esPalabra c.direccion = true ∧ esPalabra c.nit = true

/-- Every written field of the sale is a word, a value of `int`, or a `float`
whose text reads back. -/
def VentaLegible (num : Numerico) (v : Venta) : Prop :=
  enRangoInt v.nro_venta = true ∧ esPalabra v.fecha = true ∧
  esPalabra v.cliente.nombre = true ∧ FlotanteLegible num v.total ∧
  esPalabra v.vendedor.nombre = true

/-- Every written field of the seller is a word or a floating-point value
whose text reads back. -/
def VendedorLegible (num : Numerico) (v : Vendedor) : Prop :=
  esPalabra v.nombre = true ∧ esPalabra v.apellido = true ∧ esPalabra v.telefono = true ∧
  esPalabra v.correo = true ∧ esPalabra v.direccion = true ∧
  FlotanteLegible num v.salario ∧ DobleLegible num v.ventas_realizadas

/-- Every written field of the supplier is a word or a value of `int`. -/
def ProveedorLegible (p : Proveedor) : Prop :=
  enRangoInt p.id = true ∧ esPalabra p.nombre = true ∧ esPalabra p.telefono = true ∧
  esPalabra p.correo = true

/-- The product with the fields that its line does not carry (all of the
supplier but its name) as in a default-initialised record. -/
def Producto.persistido (u : Indeterminado) (p : Producto) : Producto :=
  { p with proveedor := { Proveedor.inicial u with nombre := p.proveedor.nombre } }

/-- The customer with the field that its line does not carry (`id`) as in a
default-initialised record. -/
def Cliente.persistido (u : Indeterminado) (c : Cliente) : Cliente :=
  { c with id := u.idCliente }

/-- The sale with the fields that its line does not carry (all of the
customer and of the seller but their names) as in a default-initialised
record. -/
def Venta.persistida (u : Indeterminado) (v : Venta) : Venta :=
  { v with
      cliente := { Cliente.inicial u with nombre := v.cliente.nombre }
      vendedor := { Vendedor.inicial u with nombre := v.vendedor.nombre } }

/-- The seller with the field that its line does not carry (`id`) as in a
default-initialised record. -/
def Vendedor.persistido (u : Indeterminado) (v : Vendedor) : Vendedor :=
  { v with id := u.idVendedor }

/-- The supplier with the field that its line does not carry (`tipo`) as in a
default-initialised record. -/
def Proveedor.persistido (p : Proveedor) : Proveedor :=
  { p with tipo := "" }

/-- No string field of the customer contains whitespace. -/
def Cliente.sinEspacios (c : Cliente) : Bool :=
  TiendaComponentes.sinEspacios c.nombre && TiendaComponentes.sinEspacios c.apellido &&
  TiendaComponentes.sinEspacios c.telefono && TiendaComponentes.sinEspacios c.correo &&
  TiendaComponentes.sinEspacios c.direccion && TiendaComponentes.sinEspacios c.nit

/-- No string field of the supplier contains whitespace. -/
def Proveedor.sinEspacios (p : Proveedor) : Bool :=
  TiendaComponentes.sinEspacios p.nombre && TiendaComponentes.sinEspacios p.telefono &&
  TiendaComponentes.sinEspacios p.correo && TiendaComponentes.sinEspacios p.tipo

/-- No string field of the product, its supplier included, contains
whitespace. -/
def Producto.sinEspacios (p : Producto) : Bool :=
  TiendaComponentes.sinEspacios p.codigo && TiendaComponentes.sinEspacios p.nombre &&
  TiendaComponentes.sinEspacios p.descripcion &&
  TiendaComponentes.sinEspacios p.categoria && p.proveedor.sinEspacios

/-- A product all of whose written fields are words. -/
def ejChip : Producto :=
  { codigo := "P100", nombre := "pieza", precio := ⟨10⟩, cantidad := 3,
    descripcion := "chip", categoria := "CPU", proveedor := ejAcme, estado := true }

/-- A sale of Luis to Ana. -/
def ejVentaAna : Venta :=
  { nro_venta := 1, fecha := "2024-09-07", cliente := ejAna, total := ⟨30⟩,
    vendedor := ejLuis }

/-- A store all of whose written fields are words or numbers. -/
def ejLimpia : Tienda :=
  { Tienda.vacia with
      productos := [ejChip]
      productos_codigo := [("P100", ejChip)]
      productos_categoria := [("CPU", [ejChip])]
      proveedores := [ejAcme, ejBolt]
      vendedores := [ejLuis]
      clientes := [ejAna]
      ventas := [ejVentaAna] }

/-- The store `ejLimpia` saved, then loaded into the empty store. -/
def ejLimpiaRecargada : Tienda :=
  cargarInformacion ejNumerico ejIndeterminado
    (guardarInformacion ejNumerico ejLimpia).2 Tienda.vacia

/-- A store whose customers are Eva, with her empty surname, then Ana. -/
def ejConVacio : Tienda :=
  { Tienda.vacia with clientes := [ejSinApellido, ejAna] }

/-- The store `ejConVacio` saved, then loaded into the empty store. -/
def ejConVacioRecargada : Tienda :=
  cargarInformacion ejNumerico ejIndeterminado
    (guardarInformacion ejNumerico ejConVacio).2 Tienda.vacia

/-- The store `ejDos` saved, then loaded into the empty store. -/
def ejDosRecargada : Tienda :=
  cargarInformacion ejNumerico ejIndeterminado
    (guardarInformacion ejNumerico ejDos).2 Tienda.vacia

/-- The store after creating `P100` in `CPU`, `P200` in `GPU`, then `P150` in
`CPU`. -/
def ejTres : Tienda :=
  { ejInicio with
      productos := [ejProducto "P100" "CPU", ejProducto "P200" "GPU",
        ejProducto "P150" "CPU"]
      productos_codigo :=
        [("P100", ejProducto "P100" "CPU"), ("P150", ejProducto "P150" "CPU"),
         ("P200", ejProducto "P200" "GPU")]
      productos_categoria :=
        [("CPU", [ejProducto "P100" "CPU", ejProducto "P150" "CPU"]),
         ("GPU", [ejProducto "P200" "GPU"])] }

/-- An update of `P100` that keeps its category `CPU` and changes its name,
price and quantity. -/
def ejCambio : EntradaModificar :=
  { codigo := "P100", nombre := "placa", precio := ⟨11⟩, cantidad := 4,
    descripcion := "nueva", categoria := "CPU", estado := true }

/-- The record `P100` as `ejCambio` leaves it. -/
def ejP100Cambiado : Producto :=
  { codigo := "P100", nombre := "placa", precio := ⟨11⟩, cantidad := 4,
    descripcion := "nueva", categoria := "CPU", proveedor := ejAcme, estado := true }

/-- An update of `P100` that moves it from category `CPU` to `GPU` and gives it
a description. -/
def ejMudanza : EntradaModificar :=
  { codigo := "P100", nombre := "pieza", precio := ⟨10⟩, cantidad := 3,
    descripcion := "chip", categoria := "GPU", estado := true }

/-- The record `P100` as `ejMudanza` leaves it. -/
def ejP100Mudado : Producto :=
  { codigo := "P100", nombre := "pieza", precio := ⟨10⟩, cantidad := 3,
    descripcion := "chip", categoria := "GPU", proveedor := ejAcme, estado := true }

/-- A sale entry for a customer name that no customer of `ejLimpia` has. -/
def ejEntradaZoe : EntradaVenta :=
  { nro_venta := 2, fecha := "2024-09-08", nombre_cliente := "Zoe", total := ⟨20⟩,
    nombre_vendedor := "Luis", renglones := [{ codigo := "P100", cantidad := 2, opcion := 0 }] }

/-- The entries of the map are in strictly increasing key order, as a
`std::map` iterates them. -/
def Mapa.Ordenado {V : Type} (m : Mapa V) : Prop :=
  List.Pairwise (fun a b => menor a b = true) (Mapa.claves m)

/-! ## Observations on `agregarVenta` -/

/-- The record `venta` as it stands at line 544, for the customer and the
seller found. -/
def ventaNueva (e : EntradaVenta) (cliente : Cliente) (vendedor : Vendedor) : Venta :=
  { nro_venta := e.nro_venta, fecha := e.fecha, cliente := cliente, total := e.total,
    vendedor := vendedor }

/-- The line items that the passes of the loop of lines 547-570 push onto
`detalles_ventas` for the entered items, numbered from `nro_detalle`: one for
each entered item, up to the first item whose code no product has (excluded),
the first item answered with option 0 (included), or the end of the items
entered so far. -/
def renglonesHechos (num : Numerico) (venta : Venta) (productos : List Producto) :
    List EntradaRenglon → Int → List DetalleVenta
  | [], _ => []
  | r :: resto, nro_detalle =>
    match productos.find? (fun producto => decide (producto.codigo = r.codigo)) with
    | none => []
    | some producto =>
      { nro_detalle := nro_detalle, venta := venta, producto := producto,
        cantidad := r.cantidad, subtotal := num.mul r.cantidad producto.precio } ::
      (if r.opcion ≠ 0 then renglonesHechos num venta productos resto (nro_detalle + 1)
       else [])

/-- Every record of the code index carries the code it is indexed under. -/
def ClavesPropias (s : Tienda) : Prop :=
  ∀ (c : String) (p : Producto), Mapa.buscar c s.productos_codigo = some p → p.codigo = c

/-- A sale entry for Ana and Luis: two units of `P100`, then the code `P999`,
which no product has. -/
def ejEntradaAborta : EntradaVenta :=
  { nro_venta := 2, fecha := "2024-09-08", nombre_cliente := "Ana", total := ⟨20⟩,
    nombre_vendedor := "Luis",
    renglones := [{ codigo := "P100", cantidad := 2, opcion := 1 },
                  { codigo := "P999", cantidad := 1, opcion := 0 }] }

/-- A sale entry for Ana and Luis: two units of `P100`, then three more, then
no more items. -/
def ejEntradaDos : EntradaVenta :=
  { nro_venta := 3, fecha := "2024-09-09", nombre_cliente := "Ana", total := ⟨50⟩,
    nombre_vendedor := "Luis",
    renglones := [{ codigo := "P100", cantidad := 2, opcion := 1 },
                  { codigo := "P100", cantidad := 3, opcion := 0 }] }

/-- The sale of `ejEntradaAborta`. -/
def ejVentaAborta : Venta :=
  { nro_venta := 2, fecha := "2024-09-08", cliente := ejAna, total := ⟨20⟩,
    vendedor := ejLuis }

/-- The sale of `ejEntradaDos`. -/
def ejVentaDos : Venta :=
  { nro_venta := 3, fecha := "2024-09-09", cliente := ejAna, total := ⟨50⟩,
    vendedor := ejLuis }

/-- A line item of the product `ejChip`. -/
def ejDetalle (nro_detalle : Int) (venta : Venta) (cantidad : Int) (subtotal : Nat) :
    DetalleVenta :=
  { nro_detalle := nro_detalle, venta := venta, producto := ejChip, cantidad := cantidad,
    subtotal := ⟨subtotal⟩ }

/-- The store `ejLimpia` after the entry `ejEntradaAborta`. -/
def ejTrasAborta : Tienda :=
  { ejLimpia with
      ventas := [ejVentaAna, ejVentaAborta]
      detalles_ventas := [ejDetalle 1 ejVentaAborta 2 20] }

/-- The store `ejLimpia` after the entry `ejEntradaDos`. -/
def ejTrasDos : Tienda :=
  { ejLimpia with
      ventas := [ejVentaAna, ejVentaDos]
      detalles_ventas := [ejDetalle 1 ejVentaDos 2 20, ejDetalle 2 ejVentaDos 3 30] }

/-- The texts written for the entry `ejEntradaAborta`. -/
def ejSalidaAborta : List String :=
  ["Ingrese el número de venta: ", "Ingrese la fecha de la venta: ",
   "Ingrese el nombre del cliente: ", "Ingrese el total de la venta: ",
   "Ingrese el nombre del vendedor: ", "Ingrese el código del producto: ",
   "Ingrese la cantidad del producto: ",
   "Desea agregar otro producto a la venta? (1. Sí, 0. No): ",
   "Ingrese el código del producto: ", "El producto no existe.\n"]

/-- The texts written for the entry `ejEntradaDos`. -/
def ejSalidaDos : List String :=
  ["Ingrese el número de venta: ", "Ingrese la fecha de la venta: ",
   "Ingrese el nombre del cliente: ", "Ingrese el total de la venta: ",
   "Ingrese el nombre del vendedor: ", "Ingrese el código del producto: ",
   "Ingrese la cantidad del producto: ",
   "Desea agregar otro producto a la venta? (1. Sí, 0. No): ",
   "Ingrese el código del producto: ", "Ingrese la cantidad del producto: ",
   "Desea agregar otro producto a la venta? (1. Sí, 0. No): "]

/-- Entry of the product `P300` in category `RAM` with a supplier id that no
queued supplier has. -/
def ejEntradaSinProveedor : EntradaProducto :=
  { codigos := ["P300"], nombre := "modulo", precio := ⟨40⟩, cantidad := 8,
    descripcion := "", categoria := "RAM", estado := true, id_proveedor := 9 }

/-- The two indices reflect the canonical list: the keys of the code index are
the codes of the list, every bucket holds only records of the list that have
the bucket's category, and every record of the list is in the bucket of its
category. -/
def IndicesReflejan (s : Tienda) : Prop :=
  (∀ c : String, c ∈ codigosIndice s ↔ c ∈ codigosLista s) ∧
  (∀ kv ∈ s.productos_categoria, ∀ p ∈ kv.2, p ∈ s.productos ∧ p.categoria = kv.1) ∧
  (∀ p ∈ s.productos, p ∈ Mapa.obtener p.categoria s.productos_categoria)

/-- A products file whose two lines carry the same code. -/
def ejArchivoRepetido : Archivos :=
  { productos := some "P1 placa 10 3 chip CPU Acme 1\nP1 disco 20 5 ssd SSD Bolt 0\n".data
    clientes := none, ventas := none, vendedores := none, proveedores := none }

/-- The floating-point extractions leave a part of the stream they are given:
the unread rest is not longer than the stream. -/
def Numerico.Consume (num : Numerico) : Prop :=
  (∀ (s : List Char) (x : Flotante) (r : List Char),
    num.leerFlotante s = some (x, r) → r.length ≤ s.length) ∧
  (∀ (s : List Char) (x : Doble) (r : List Char),
    num.leerDoble s = some (x, r) → r.length ≤ s.length)

/-! ## Lemmas on the maps -/

theorem Mapa.buscar_reemplazar_self {V : Type} (k : String) (v : V) (m : Mapa V)
    (h : Mapa.contiene k m = true) : Mapa.buscar k (Mapa.reemplazar k v m) = some v := by
  induction m with
  | nil => simp [Mapa.contiene, Mapa.buscar] at h
  | cons kv m ih =>
    obtain ⟨k', v'⟩ := kv
    by_cases hk : k' = k
    · simp [Mapa.reemplazar, Mapa.buscar, hk]
    · have h' : Mapa.contiene k m = true := by
        simpa [Mapa.contiene, Mapa.buscar, hk] using h
      simp [Mapa.reemplazar, Mapa.buscar, hk, ih h']

theorem Mapa.buscar_reemplazar_ne {V : Type} (k k0 : String) (v : V) (m : Mapa V)
    (h : k0 ≠ k) : Mapa.buscar k0 (Mapa.reemplazar k v m) = Mapa.buscar k0 m := by
  induction m with
  | nil => rfl
  | cons kv m ih =>
    obtain ⟨k', v'⟩ := kv
    by_cases hk : k' = k
    · subst hk
      have hk0 : ¬ k' = k0 := fun h0 => h h0.symm
      simp [Mapa.reemplazar, Mapa.buscar, hk0]
    · by_cases hk0 : k' = k0
      · subst hk0
        simp [Mapa.reemplazar, Mapa.buscar, hk]
      · simp [Mapa.reemplazar, Mapa.buscar, hk, hk0, ih]

theorem Mapa.buscar_insertar_self {V : Type} (k : String) (v : V) (m : Mapa V)
    (h : Mapa.buscar k m = none) : Mapa.buscar k (Mapa.insertar k v m) = some v := by
  induction m with
  | nil => simp [Mapa.insertar, Mapa.buscar]
  | cons kv m ih =>
    obtain ⟨k', v'⟩ := kv
    by_cases hk : k' = k
    · simp [Mapa.buscar, hk] at h
    · have h' : Mapa.buscar k m = none := by simpa [Mapa.buscar, hk] using h
      by_cases hlt : menor k k' = true
      · simp [Mapa.insertar, Mapa.buscar, hlt]
      · simp [Mapa.insertar, Mapa.buscar, hlt, hk, ih h']

theorem Mapa.buscar_insertar_ne {V : Type} (k k0 : String) (v : V) (m : Mapa V)
    (h : k0 ≠ k) : Mapa.buscar k0 (Mapa.insertar k v m) = Mapa.buscar k0 m := by
  induction m with
  | nil => simp [Mapa.insertar, Mapa.buscar, Ne.symm h]
  | cons kv m ih =>
    obtain ⟨k', v'⟩ := kv
    by_cases hlt : menor k k' = true
    · simp [Mapa.insertar, Mapa.buscar, hlt, Ne.symm h]
    · by_cases hk0 : k' = k0
      · subst hk0
        simp [Mapa.insertar, Mapa.buscar, hlt]
      · simp [Mapa.insertar, Mapa.buscar, hlt, hk0, ih]

theorem Mapa.buscar_asignar_self {V : Type} (k : String) (v : V) (m : Mapa V) :
    Mapa.buscar k (Mapa.asignar k v m) = some v := by
  unfold Mapa.asignar
  by_cases h : Mapa.contiene k m = true
  · simp [h, Mapa.buscar_reemplazar_self k v m h]
  · have h' : Mapa.buscar k m = none := by
      simpa [Mapa.contiene] using h
    simp [h, Mapa.buscar_insertar_self k v m h']

theorem Mapa.buscar_asignar_ne {V : Type} (k k0 : String) (v : V) (m : Mapa V)
    (h : k0 ≠ k) : Mapa.buscar k0 (Mapa.asignar k v m) = Mapa.buscar k0 m := by
  unfold Mapa.asignar
  by_cases hc : Mapa.contiene k m = true
  · simp [hc, Mapa.buscar_reemplazar_ne k k0 v m h]
  · simp [hc, Mapa.buscar_insertar_ne k k0 v m h]

theorem Mapa.buscar_borrar_self {V : Type} (k : String) (m : Mapa V) :
    Mapa.buscar k (Mapa.borrar k m) = none := by
  induction m with
  | nil => rfl
  | cons kv m ih =>
    obtain ⟨k', v'⟩ := kv
    by_cases hk : k' = k
    · simpa [Mapa.borrar, hk] using ih
    · have : Mapa.borrar k ((k', v') :: m) = (k', v') :: Mapa.borrar k m := by
        simp [Mapa.borrar, hk]
      rw [this]; simp [Mapa.buscar, hk, ih]

theorem Mapa.buscar_borrar_ne {V : Type} (k k0 : String) (m : Mapa V) (h : k0 ≠ k) :
    Mapa.buscar k0 (Mapa.borrar k m) = Mapa.buscar k0 m := by
  induction m with
  | nil => rfl
  | cons kv m ih =>
    obtain ⟨k', v'⟩ := kv
    by_cases hk : k' = k
    · have hk0 : ¬ k' = k0 := fun h0 => h (h0.symm.trans hk)
      have : Mapa.borrar k ((k', v') :: m) = Mapa.borrar k m := by
        simp [Mapa.borrar, hk]
      rw [this, ih]; simp [Mapa.buscar, hk0]
    · have : Mapa.borrar k ((k', v') :: m) = (k', v') :: Mapa.borrar k m := by
        simp [Mapa.borrar, hk]
      rw [this]
      by_cases hk0 : k' = k0
      · simp [Mapa.buscar, hk0]
      · simp [Mapa.buscar, hk0, ih]


theorem Mapa.mem_claves_iff {V : Type} (k : String) (m : Mapa V) :
    k ∈ Mapa.claves m ↔ Mapa.contiene k m = true := by
  induction m with
  | nil => simp [Mapa.claves, Mapa.contiene, Mapa.buscar]
  | cons kv m ih =>
    obtain ⟨k', v'⟩ := kv
    by_cases hk : k' = k
    · simp [Mapa.claves, Mapa.contiene, Mapa.buscar, hk]
    · have ih' : k ∈ List.map Prod.fst m ↔ (Mapa.buscar k m).isSome = true := ih
      have hk' : ¬ k = k' := fun h => hk h.symm
      simp [Mapa.claves, Mapa.contiene, Mapa.buscar, hk, hk', ih']

theorem Mapa.not_mem_claves_iff {V : Type} (k : String) (m : Mapa V) :
    k ∉ Mapa.claves m ↔ Mapa.buscar k m = none := by
  rw [Mapa.mem_claves_iff]
  simp [Mapa.contiene]

theorem Mapa.claves_reemplazar {V : Type} (k : String) (v : V) (m : Mapa V) :
    Mapa.claves (Mapa.reemplazar k v m) = Mapa.claves m := by
  induction m with
  | nil => rfl
  | cons kv m ih =>
    obtain ⟨k', v'⟩ := kv
    by_cases hk : k' = k
    · simp [Mapa.reemplazar, Mapa.claves, hk]
    · have ih' : List.map Prod.fst (Mapa.reemplazar k v m) = List.map Prod.fst m := ih
      simp [Mapa.reemplazar, Mapa.claves, hk, ih']

theorem Mapa.claves_insertar_perm {V : Type} (k : String) (v : V) (m : Mapa V) :
    (Mapa.claves (Mapa.insertar k v m)).Perm (k :: Mapa.claves m) := by
  induction m with
  | nil => simp [Mapa.insertar, Mapa.claves]
  | cons kv m ih =>
    obtain ⟨k', v'⟩ := kv
    by_cases hlt : menor k k' = true
    · simp [Mapa.insertar, Mapa.claves, hlt]
    · have ih' : (List.map Prod.fst (Mapa.insertar k v m)).Perm
          (k :: List.map Prod.fst m) := ih
      simp only [Mapa.insertar, hlt, Mapa.claves, List.map_cons, Bool.false_eq_true,
        if_false]
      exact (List.Perm.cons k' ih').trans (List.Perm.swap k k' _)

theorem Mapa.claves_borrar {V : Type} (k : String) (m : Mapa V) :
    Mapa.claves (Mapa.borrar k m) = (Mapa.claves m).filter (fun x => decide (x ≠ k)) := by
  induction m with
  | nil => rfl
  | cons kv m ih =>
    obtain ⟨k', v'⟩ := kv
    have ih' : List.map Prod.fst (List.filter (fun kv => decide (kv.1 ≠ k)) m) =
        List.filter (fun x => decide (x ≠ k)) (List.map Prod.fst m) := ih
    by_cases hk : k' = k
    · simp [Mapa.borrar, Mapa.claves, hk, List.filter_cons] at ih' ⊢
      exact ih'
    · simp [Mapa.borrar, Mapa.claves, hk, List.filter_cons] at ih' ⊢
      exact ih'

theorem Mapa.nodup_claves_asignar {V : Type} (k : String) (v : V) (m : Mapa V)
    (h : (Mapa.claves m).Nodup) : (Mapa.claves (Mapa.asignar k v m)).Nodup := by
  unfold Mapa.asignar
  by_cases hc : Mapa.contiene k m = true
  · simp only [hc, if_true, Mapa.claves_reemplazar]; exact h
  · simp only [hc, Bool.false_eq_true, if_false]
    rw [(Mapa.claves_insertar_perm k v m).nodup_iff]
    refine List.nodup_cons.mpr ⟨?_, h⟩
    rw [Mapa.mem_claves_iff]; exact hc

theorem Mapa.nodup_claves_borrar {V : Type} (k : String) (m : Mapa V)
    (h : (Mapa.claves m).Nodup) : (Mapa.claves (Mapa.borrar k m)).Nodup := by
  rw [Mapa.claves_borrar]; exact h.filter _

theorem Mapa.mem_claves_asignar {V : Type} (k k0 : String) (v : V) (m : Mapa V) :
    k0 ∈ Mapa.claves (Mapa.asignar k v m) ↔ k0 = k ∨ k0 ∈ Mapa.claves m := by
  by_cases h : k0 = k
  · subst h
    simp [Mapa.mem_claves_iff, Mapa.contiene, Mapa.buscar_asignar_self]
  · simp [Mapa.mem_claves_iff, Mapa.contiene, Mapa.buscar_asignar_ne _ _ _ _ h, h]

theorem Mapa.mem_claves_borrar {V : Type} (k k0 : String) (m : Mapa V) :
    k0 ∈ Mapa.claves (Mapa.borrar k m) ↔ k0 ≠ k ∧ k0 ∈ Mapa.claves m := by
  rw [Mapa.claves_borrar]
  simp [List.mem_filter, and_comm]

/-! ## Lemmas on `agregarProducto` -/

theorem escanearProveedores_cola (id_proveedor : Int) (cola aux : List Proveedor)
    (prov : Proveedor) :
    (escanearProveedores id_proveedor cola aux prov).1 = aux ++ cola := by
  induction cola generalizing aux prov with
  | nil => simp [escanearProveedores]
  | cons p cola ih => simp [escanearProveedores, ih]

theorem leerCodigo_some (idx : Mapa Producto) (cs : List String) (c : String)
    (avisos : List String) (h : leerCodigo idx cs = some (c, avisos)) :
    ∃ pre post, cs = pre ++ c :: post ∧
      (∀ x ∈ pre, Mapa.contiene x idx = true) ∧ Mapa.contiene c idx = false ∧
      avisos = List.replicate pre.length avisoCodigoExiste := by
  induction cs generalizing avisos with
  | nil => simp [leerCodigo] at h
  | cons x resto ih =>
    by_cases hx : Mapa.contiene x idx = true
    · simp only [leerCodigo, hx, if_true] at h
      cases hr : leerCodigo idx resto with
      | none => simp [hr] at h
      | some r =>
        obtain ⟨c', av'⟩ := r
        simp only [hr, Option.some.injEq, Prod.mk.injEq] at h
        obtain ⟨hc, hav⟩ := h
        subst hc
        obtain ⟨pre, post, h1, h2, h3, h4⟩ := ih av' hr
        refine ⟨x :: pre, post, by simp [h1], ?_, h3, ?_⟩
        · intro y hy
          rcases List.mem_cons.mp hy with hy | hy
          · rw [hy]; exact hx
          · exact h2 y hy
        · rw [← hav, h4]; rfl
    · simp only [leerCodigo, hx] at h
      simp only [Bool.false_eq_true, if_false, Option.some.injEq, Prod.mk.injEq] at h
      obtain ⟨hc, hav⟩ := h
      subst hc
      exact ⟨[], resto, rfl, by simp, by simpa using hx, by simp [← hav]⟩

theorem leerCodigo_isSome (idx : Mapa Producto) (cs : List String) :
    (leerCodigo idx cs).isSome = true ↔ ∃ c ∈ cs, Mapa.contiene c idx = false := by
  induction cs with
  | nil => simp [leerCodigo]
  | cons x resto ih =>
    by_cases hx : Mapa.contiene x idx = true
    · have : (leerCodigo idx (x :: resto)).isSome = (leerCodigo idx resto).isSome := by
        simp only [leerCodigo, hx, if_true]
        cases leerCodigo idx resto with
        | none => rfl
        | some r => rfl
      rw [this, ih]
      constructor
      · rintro ⟨c, hc, hcc⟩
        exact ⟨c, List.mem_cons_of_mem _ hc, hcc⟩
      · rintro ⟨c, hc, hcc⟩
        rcases List.mem_cons.mp hc with h | h
        · rw [h, hx] at hcc; exact absurd hcc (by simp)
        · exact ⟨c, h, hcc⟩
    · have hx' : Mapa.contiene x idx = false := by simpa using hx
      simp only [leerCodigo, hx', Bool.false_eq_true, if_false, Option.isSome_some, true_iff]
      exact ⟨x, List.mem_cons_self _ _, hx'⟩

/-- What a returning call of `agregarProducto` did, in terms of the accepted
code. -/
theorem agregarProducto_some (u : Indeterminado) (s s' : Tienda) (e : EntradaProducto)
    (salida : List String) (h : agregarProducto u s e = some (s', salida)) :
    ∃ c avisos, leerCodigo s.productos_codigo e.codigos = some (c, avisos) ∧
      s' = { s with
        proveedores := s.proveedores
        productos := s.productos ++ [productoNuevo u s e c]
        productos_codigo := Mapa.asignar c (productoNuevo u s e c) s.productos_codigo
        productos_categoria :=
          Mapa.asignar e.categoria
            (Mapa.obtener e.categoria s.productos_categoria ++ [productoNuevo u s e c])
            s.productos_categoria } ∧
      salida = ["Ingrese el código del producto: "] ++ avisos ++
        ["Ingrese el nombre del producto: ", "Ingrese el precio del producto: ",
         "Ingrese la cantidad del producto: ", "Ingrese la descripción del producto: ",
         "Ingrese la categoría del producto: ", "Ingrese el estado del producto: ",
         "Ingrese el id del proveedor: "] := by
  unfold agregarProducto at h
  cases hr : leerCodigo s.productos_codigo e.codigos with
  | none => simp [hr] at h
  | some r =>
    obtain ⟨c, avisos⟩ := r
    simp only [hr, Option.some.injEq, Prod.mk.injEq] at h
    obtain ⟨h1, h2⟩ := h
    refine ⟨c, avisos, rfl, ?_, h2.symm⟩
    rw [← h1]
    simp [escanearProveedores_cola, productoNuevo]

/-! ## Creation of a product -/

/-- C10. When `agregarProducto` returns, it created one record `p` under an
entered code `c` that was not a key of `productos_codigo`, in the entered
category: `productos` is the old list with `p` appended at the end,
`productos_codigo` maps `c` to `p` and is unchanged under every other key, the
bucket of the category is its old content with `p` appended at the end
(exactly `[p]` when the category had no bucket), and the bucket of every other
category is unchanged. -/
theorem agregarProducto_inserta (u : Indeterminado) (s s' : Tienda)
    (e : EntradaProducto) (salida : List String)
    (h : agregarProducto u s e = some (s', salida)) :
    ∃ c, c ∈ e.codigos ∧ c ∉ Mapa.claves s.productos_codigo ∧
      (productoNuevo u s e c).codigo = c ∧
      (productoNuevo u s e c).categoria = e.categoria ∧
      s'.productos = s.productos ++ [productoNuevo u s e c] ∧
      Mapa.buscar c s'.productos_codigo = some (productoNuevo u s e c) ∧
      (∀ c', c' ≠ c →
        Mapa.buscar c' s'.productos_codigo = Mapa.buscar c' s.productos_codigo) ∧
      Mapa.buscar e.categoria s'.productos_categoria =
        some (Mapa.obtener e.categoria s.productos_categoria ++
          [productoNuevo u s e c]) ∧
      (e.categoria ∉ Mapa.claves s.productos_categoria →
        Mapa.buscar e.categoria s'.productos_categoria =
          some [productoNuevo u s e c]) ∧
      (∀ k, k ≠ e.categoria →
        Mapa.buscar k s'.productos_categoria = Mapa.buscar k s.productos_categoria) := by
  obtain ⟨c, avisos, hr, hs, _⟩ := agregarProducto_some u s s' e salida h
  obtain ⟨pre, post, h1, _, h3, _⟩ := leerCodigo_some _ _ _ _ hr
  subst hs
  refine ⟨c, by simp [h1], ?_, rfl, rfl, rfl, Mapa.buscar_asignar_self _ _ _,
    fun c' hc' => Mapa.buscar_asignar_ne _ _ _ _ hc', Mapa.buscar_asignar_self _ _ _,
    ?_, fun k hk => Mapa.buscar_asignar_ne _ _ _ _ hk⟩
  · rw [Mapa.mem_claves_iff, h3]; simp
  · intro hk
    have hnone := (Mapa.not_mem_claves_iff _ _).mp hk
    simp [Mapa.buscar_asignar_self, Mapa.obtener, hnone]

theorem agregarProducto_inserta_witness :
    agregarProducto ejIndeterminado ejInicio (ejEntrada ["P100"] "CPU") =
        some (ejP100, ejSalida 0) ∧
    ∃ c, c ∈ ["P100"] ∧ c ∉ Mapa.claves ejInicio.productos_codigo ∧
      (productoNuevo ejIndeterminado ejInicio (ejEntrada ["P100"] "CPU") c).codigo = c ∧
      ejP100.productos = ejInicio.productos ++
        [productoNuevo ejIndeterminado ejInicio (ejEntrada ["P100"] "CPU") c] ∧
      Mapa.buscar "CPU" ejP100.productos_categoria =
        some [productoNuevo ejIndeterminado ejInicio (ejEntrada ["P100"] "CPU") c] := by
  have h : agregarProducto ejIndeterminado ejInicio (ejEntrada ["P100"] "CPU") =
      some (ejP100, ejSalida 0) := by decide
  obtain ⟨c, h1, h2, h3, _, h5, _, _, _, h9, _⟩ :=
    agregarProducto_inserta ejIndeterminado ejInicio ejP100 (ejEntrada ["P100"] "CPU")
      (ejSalida 0) h
  exact ⟨h, c, h1, h2, h3, h5, h9 (by decide)⟩

/-- C5. For every store and every entry of `agregarProducto`, one of two things
holds. Either every entered code is a key of `productos_codigo`: each is
rejected and the call never gets past the retry loop (no product is created).
Or the entered codes split into rejected codes `pre`, all keys of the index,
followed by a first code `c` that is not a key: the call returns, it wrote the
retry text once per rejected code, the product is created under `c`, and for
each rejected code the record indexed under it, the records of `productos`
with that code, the number of keys of the index equal to it and the records
with that code in every category bucket are what they were. -/
theorem agregarProducto_rechaza_repetido (u : Indeterminado) (s : Tienda)
    (e : EntradaProducto) :
    ((∀ x ∈ e.codigos, x ∈ Mapa.claves s.productos_codigo) ∧
      agregarProducto u s e = none) ∨
    ∃ pre c post s' salida, e.codigos = pre ++ c :: post ∧
      (∀ x ∈ pre, x ∈ Mapa.claves s.productos_codigo) ∧
      c ∉ Mapa.claves s.productos_codigo ∧
      agregarProducto u s e = some (s', salida) ∧
      s'.productos = s.productos ++ [productoNuevo u s e c] ∧
      (productoNuevo u s e c).codigo = c ∧
      salida.count avisoCodigoExiste = pre.length ∧
      ∀ x ∈ pre,
        Mapa.buscar x s'.productos_codigo = Mapa.buscar x s.productos_codigo ∧
        (Mapa.claves s'.productos_codigo).count x =
          (Mapa.claves s.productos_codigo).count x ∧
        s'.productos.filter (fun p => decide (p.codigo = x)) =
          s.productos.filter (fun p => decide (p.codigo = x)) ∧
        ∀ k, (Mapa.obtener k s'.productos_categoria).filter
              (fun p => decide (p.codigo = x)) =
            (Mapa.obtener k s.productos_categoria).filter
              (fun p => decide (p.codigo = x)) := by
  cases hop : agregarProducto u s e with
  | none =>
    left
    refine ⟨?_, rfl⟩
    have hnone : leerCodigo s.productos_codigo e.codigos = none := by
      cases hr : leerCodigo s.productos_codigo e.codigos with
      | none => rfl
      | some r => simp [agregarProducto, hr] at hop
    intro x hx
    by_contra hcon
    have hsome := (leerCodigo_isSome s.productos_codigo e.codigos).mpr
      ⟨x, hx, by simpa [Mapa.mem_claves_iff] using hcon⟩
    simp [hnone] at hsome
  | some r =>
    right
    obtain ⟨s', salida⟩ := r
    obtain ⟨c, avisos, hr, hs, hsal⟩ := agregarProducto_some u s s' e salida hop
    obtain ⟨pre, post, h1, h2, h3, h4⟩ := leerCodigo_some _ _ _ _ hr
    have hne : ∀ x ∈ pre, x ≠ c := by
      intro x hx hxc
      have := h2 x hx
      rw [hxc, h3] at this
      exact absurd this (by simp)
    subst hs
    refine ⟨pre, c, post, _, salida, h1,
      fun x hx => (Mapa.mem_claves_iff _ _).mpr (h2 x hx), ?_, rfl, rfl, rfl, ?_, ?_⟩
    · rw [Mapa.mem_claves_iff, h3]; simp
    · rw [hsal, h4]
      simp [List.count_append, List.count_cons, List.count_replicate, avisoCodigoExiste]
    · intro x hx
      have hxc : x ≠ c := hne x hx
      refine ⟨Mapa.buscar_asignar_ne _ _ _ _ hxc, ?_, ?_, ?_⟩
      · show (Mapa.claves (Mapa.asignar c (productoNuevo u s e c) s.productos_codigo)).count x
          = (Mapa.claves s.productos_codigo).count x
        simp only [Mapa.asignar, h3, Bool.false_eq_true, if_false]
        rw [(Mapa.claves_insertar_perm c _ s.productos_codigo).count_eq x]
        exact List.count_cons_of_ne (fun h0 => hxc h0) _
      · have : (productoNuevo u s e c).codigo ≠ x := fun h0 => hxc h0.symm
        simp [List.filter_append, List.filter_cons, this]
      · intro k
        by_cases hk : k = e.categoria
        · have : (productoNuevo u s e c).codigo ≠ x := fun h0 => hxc h0.symm
          subst hk
          simp only [Mapa.obtener, Mapa.buscar_asignar_self, Option.getD_some]
          simp [List.filter_append, List.filter_cons, this]
        · simp only [Mapa.obtener, Mapa.buscar_asignar_ne _ _ _ _ hk]

/-- C7. When `agregarProducto` returns, the queue `proveedores` holds the same
supplier records in the same order as before, whatever supplier id was
entered. -/
theorem agregarProducto_conserva_proveedores (u : Indeterminado) (s s' : Tienda)
    (e : EntradaProducto) (salida : List String)
    (h : agregarProducto u s e = some (s', salida)) :
    s'.proveedores = s.proveedores := by
  obtain ⟨c, avisos, _, hs, _⟩ := agregarProducto_some u s s' e salida h
  rw [hs]

theorem agregarProducto_conserva_proveedores_witness :
    agregarProducto ejIndeterminado ejP100 (ejEntrada ["P200"] "GPU") =
        some (ejDos, ejSalida 0) ∧
    ejDos.proveedores = [ejAcme, ejBolt] ∧
    (ejProducto "P200" "GPU").proveedor = ejAcme ∧
    ejProducto "P200" "GPU" ∈ ejDos.productos :=
  ⟨by decide,
   agregarProducto_conserva_proveedores ejIndeterminado ejP100 ejDos
     (ejEntrada ["P200"] "GPU") (ejSalida 0) (by decide),
   rfl, by decide⟩

/-! ## Deletion of a code that is not indexed -/

/-- C6. For a code that is not a key of `productos_codigo`, `eliminarProducto`
leaves the whole store as it was (so `productos`, `productos_codigo` and
`productos_categoria`, keys and buckets) and writes, after its prompt, that
the product does not exist. -/
theorem eliminarProducto_inexistente (s : Tienda) (codigo : String)
    (h : codigo ∉ Mapa.claves s.productos_codigo) :
    eliminarProducto s codigo =
      (s, ["Ingrese el código del producto a eliminar: ", "El producto no existe.\n"]) := by
  have hnone := (Mapa.not_mem_claves_iff _ _).mp h
  simp [eliminarProducto, hnone, avisoNoExiste]

theorem eliminarProducto_inexistente_witness :
    "P300" ∉ Mapa.claves ejDos.productos_codigo ∧
    eliminarProducto ejDos "P300" =
      (ejDos, ["Ingrese el código del producto a eliminar: ",
        "El producto no existe.\n"]) :=
  ⟨by decide, eliminarProducto_inexistente ejDos "P300" (by decide)⟩

/-! ## The code index follows the canonical list -/

theorem indiceFiel_inicio (s : Tienda) (h1 : s.productos = [])
    (h2 : s.productos_codigo = []) : IndiceFiel s := by
  simp [IndiceFiel, codigosLista, codigosIndice, Mapa.claves, h1, h2]

theorem indiceFiel_agregar (u : Indeterminado) (s s' : Tienda) (e : EntradaProducto)
    (salida : List String) (hinv : IndiceFiel s)
    (h : agregarProducto u s e = some (s', salida)) : IndiceFiel s' := by
  obtain ⟨c, avisos, hr, hs, _⟩ := agregarProducto_some u s s' e salida h
  obtain ⟨pre, post, _, _, h3, _⟩ := leerCodigo_some _ _ _ _ hr
  obtain ⟨i1, i2, i3, i4⟩ := hinv
  have hc : c ∉ Mapa.claves s.productos_codigo := by
    rw [Mapa.mem_claves_iff, h3]; simp
  have hcl : c ∉ codigosLista s := by
    intro hmem
    obtain ⟨p, hp, hpc⟩ := List.mem_map.mp hmem
    exact hc ((i3 c).mpr ⟨p, hp, hpc⟩)
  subst hs
  refine ⟨?_, Mapa.nodup_claves_asignar _ _ _ i2, ?_, ?_⟩
  · have : codigosLista s ++ [c] = List.map (fun p => p.codigo)
        (s.productos ++ [productoNuevo u s e c]) := by
      simp [codigosLista, productoNuevo]
    show (List.map (fun p => p.codigo) (s.productos ++ [productoNuevo u s e c])).Nodup
    rw [← this]
    refine List.nodup_append.mpr ⟨i1, List.nodup_singleton c, ?_⟩
    intro x hx hx'
    rw [List.mem_singleton] at hx'
    exact hcl (hx' ▸ hx)
  · intro c'
    show c' ∈ Mapa.claves (Mapa.asignar c (productoNuevo u s e c) s.productos_codigo) ↔
      ∃ p ∈ s.productos ++ [productoNuevo u s e c], p.codigo = c'
    rw [Mapa.mem_claves_asignar]
    constructor
    · rintro (h0 | h0)
      · exact ⟨productoNuevo u s e c, by simp, h0.symm⟩
      · obtain ⟨p, hp, hpc⟩ := (i3 c').mp h0
        exact ⟨p, List.mem_append_left _ hp, hpc⟩
    · rintro ⟨p, hp, hpc⟩
      rcases List.mem_append.mp hp with hp | hp
      · exact Or.inr ((i3 c').mpr ⟨p, hp, hpc⟩)
      · rw [List.mem_singleton] at hp
        subst hp
        exact Or.inl hpc.symm
  · intro p hp
    show Mapa.buscar p.codigo (Mapa.asignar c (productoNuevo u s e c) s.productos_codigo) =
      some p
    rcases List.mem_append.mp hp with hp | hp
    · have hne : p.codigo ≠ c := by
        intro h0
        exact hc ((i3 c).mpr ⟨p, hp, h0⟩)
      rw [Mapa.buscar_asignar_ne _ _ _ _ hne]
      exact i4 p hp
    · rw [List.mem_singleton] at hp
      subst hp
      exact Mapa.buscar_asignar_self _ _ _

/-- In a faithful index the record found under a key carries that key. -/
theorem indiceFiel_codigo (s : Tienda) (hinv : IndiceFiel s) (c : String) (p : Producto)
    (h : Mapa.buscar c s.productos_codigo = some p) : p.codigo = c ∧ p ∈ s.productos := by
  obtain ⟨_, _, i3, i4⟩ := hinv
  have hmem : c ∈ codigosIndice s := by
    show c ∈ Mapa.claves s.productos_codigo
    rw [Mapa.mem_claves_iff]; simp [Mapa.contiene, h]
  obtain ⟨q, hq, hqc⟩ := (i3 c).mp hmem
  have := i4 q hq
  rw [hqc, h] at this
  have hpq : p = q := Option.some.inj this
  subst hpq
  exact ⟨hqc, hq⟩

theorem map_codigo_sustituir (c : String) (p : Producto) (l : List Producto)
    (hp : p.codigo = c) :
    (sustituir c p l).map (fun q => q.codigo) = l.map (fun q => q.codigo) := by
  induction l with
  | nil => rfl
  | cons q l ih =>
    have ih' : List.map (fun q => q.codigo)
        (List.map (fun q => if q.codigo = c then p else q) l) =
        List.map (fun q => q.codigo) l := ih
    by_cases hq : q.codigo = c
    · simp [sustituir, hq, hp] at ih' ⊢
      exact ih'
    · simp [sustituir, hq] at ih' ⊢
      exact ih'

theorem mem_sustituir (c : String) (p : Producto) (l : List Producto) (q : Producto)
    (h : q ∈ sustituir c p l) : q = p ∨ (q ∈ l ∧ q.codigo ≠ c) := by
  obtain ⟨r, hr, hrq⟩ := List.mem_map.mp h
  by_cases hc : r.codigo = c
  · simp [hc] at hrq; exact Or.inl hrq.symm
  · simp [hc] at hrq; subst hrq; exact Or.inr ⟨hr, hc⟩

theorem modificarProducto_some (s : Tienda) (e : EntradaModificar) (hallado : Producto)
    (h : Mapa.buscar e.codigo s.productos_codigo = some hallado) :
    (modificarProducto s e).1 = { s with
      productos_codigo :=
        Mapa.asignar e.codigo (productoModificado hallado e) s.productos_codigo
      productos := sustituir e.codigo (productoModificado hallado e) s.productos
      productos_categoria :=
        Mapa.asignar e.categoria
          (auxModificar e.codigo (productoModificado hallado e) s.productos_categoria)
          s.productos_categoria } := by
  simp [modificarProducto, h, productoModificado]

theorem modificarProducto_none (s : Tienda) (e : EntradaModificar)
    (h : Mapa.buscar e.codigo s.productos_codigo = none) :
    (modificarProducto s e).1 = s := by
  simp [modificarProducto, h]

theorem indiceFiel_modificar (s : Tienda) (e : EntradaModificar) (hinv : IndiceFiel s) :
    IndiceFiel (modificarProducto s e).1 := by
  cases hb : Mapa.buscar e.codigo s.productos_codigo with
  | none => rw [modificarProducto_none s e hb]; exact hinv
  | some hallado =>
    rw [modificarProducto_some s e hallado hb]
    obtain ⟨hcod0, _⟩ := indiceFiel_codigo s hinv e.codigo hallado hb
    have hcod : (productoModificado hallado e).codigo = e.codigo := hcod0
    obtain ⟨i1, i2, i3, i4⟩ := hinv
    have hcont : Mapa.contiene e.codigo s.productos_codigo = true := by
      simp [Mapa.contiene, hb]
    have hmap := map_codigo_sustituir e.codigo (productoModificado hallado e)
      s.productos hcod
    refine ⟨?_, Mapa.nodup_claves_asignar _ _ _ i2, ?_, ?_⟩
    · show (List.map (fun p => p.codigo)
        (sustituir e.codigo (productoModificado hallado e) s.productos)).Nodup
      rw [hmap]; exact i1
    · intro c'
      show c' ∈ Mapa.claves (Mapa.asignar e.codigo (productoModificado hallado e)
          s.productos_codigo) ↔
        ∃ p ∈ sustituir e.codigo (productoModificado hallado e) s.productos, p.codigo = c'
      have hiff : (∃ p ∈ sustituir e.codigo (productoModificado hallado e) s.productos,
          p.codigo = c') ↔ c' ∈ codigosLista s := by
        unfold codigosLista
        rw [← hmap]
        simp [List.mem_map]
      rw [hiff, Mapa.mem_claves_asignar]
      have hl : c' ∈ codigosLista s ↔ c' ∈ codigosIndice s := by
        rw [i3 c']; simp [codigosLista, List.mem_map]
      rw [hl]
      constructor
      · rintro (h0 | h0)
        · rw [h0]; exact (Mapa.mem_claves_iff _ _).mpr hcont
        · exact h0
      · exact fun h0 => Or.inr h0
    · intro q hq
      show Mapa.buscar q.codigo (Mapa.asignar e.codigo (productoModificado hallado e)
        s.productos_codigo) = some q
      rcases mem_sustituir _ _ _ _ hq with h0 | ⟨h0, h1⟩
      · subst h0
        rw [hcod]
        exact Mapa.buscar_asignar_self _ _ _
      · rw [Mapa.buscar_asignar_ne _ _ _ _ h1]
        exact i4 q h0

theorem eliminarProducto_some (s : Tienda) (codigo : String) (hallado : Producto)
    (h : Mapa.buscar codigo s.productos_codigo = some hallado) :
    (eliminarProducto s codigo).1 = { s with
      productos_codigo := Mapa.borrar codigo s.productos_codigo
      productos := quitar codigo s.productos
      productos_categoria :=
        Mapa.asignar hallado.categoria
          (auxEliminar codigo hallado.categoria s.productos_categoria)
          s.productos_categoria } := by
  simp [eliminarProducto, h]

theorem eliminarProducto_none (s : Tienda) (codigo : String)
    (h : Mapa.buscar codigo s.productos_codigo = none) :
    (eliminarProducto s codigo).1 = s := by
  simp [eliminarProducto, h]

theorem indiceFiel_eliminar (s : Tienda) (codigo : String) (hinv : IndiceFiel s) :
    IndiceFiel (eliminarProducto s codigo).1 := by
  cases hb : Mapa.buscar codigo s.productos_codigo with
  | none => rw [eliminarProducto_none s codigo hb]; exact hinv
  | some hallado =>
    rw [eliminarProducto_some s codigo hallado hb]
    obtain ⟨i1, i2, i3, i4⟩ := hinv
    have hmemq : ∀ q, q ∈ quitar codigo s.productos ↔ q ∈ s.productos ∧ q.codigo ≠ codigo := by
      intro q; simp [quitar, List.mem_filter]
    refine ⟨?_, Mapa.nodup_claves_borrar _ _ i2, ?_, ?_⟩
    · show (List.map (fun p => p.codigo) (quitar codigo s.productos)).Nodup
      exact List.Nodup.sublist (List.Sublist.map _ (List.filter_sublist _)) i1
    · intro c'
      show c' ∈ Mapa.claves (Mapa.borrar codigo s.productos_codigo) ↔
        ∃ p ∈ quitar codigo s.productos, p.codigo = c'
      rw [Mapa.mem_claves_borrar]
      constructor
      · rintro ⟨h0, h1⟩
        obtain ⟨p, hp, hpc⟩ := (i3 c').mp h1
        exact ⟨p, (hmemq p).mpr ⟨hp, hpc ▸ h0⟩, hpc⟩
      · rintro ⟨p, hp, hpc⟩
        obtain ⟨hp1, hp2⟩ := (hmemq p).mp hp
        exact ⟨hpc ▸ hp2, (i3 c').mpr ⟨p, hp1, hpc⟩⟩
    · intro q hq
      show Mapa.buscar q.codigo (Mapa.borrar codigo s.productos_codigo) = some q
      obtain ⟨hq1, hq2⟩ := (hmemq q).mp hq
      rw [Mapa.buscar_borrar_ne _ _ _ hq2]
      exact i4 q hq1

/-- C2. In every store reached from a store without products by
`agregarProducto`, `modificarProducto` and `eliminarProducto`, the codes of
`productos` are pairwise distinct, the keys of `productos_codigo` are pairwise
distinct, a code is a key of the index exactly when a record of `productos`
carries it, and the record stored under the code of a record of `productos` is
that record. -/
theorem indice_fiel_en_alcanzables (s : Tienda) (h : Alcanzable s) :
    (codigosLista s).Nodup ∧ (codigosIndice s).Nodup ∧
    (∀ c : String, c ∈ codigosIndice s ↔ ∃ p ∈ s.productos, p.codigo = c) ∧
    (∀ p ∈ s.productos, Mapa.buscar p.codigo s.productos_codigo = some p) := by
  have key : IndiceFiel s := by
    induction h with
    | inicio s h1 h2 _ => exact indiceFiel_inicio s h1 h2
    | crear u e s s' salida _ hop ih => exact indiceFiel_agregar u s s' e salida ih hop
    | modificar e s _ ih => exact indiceFiel_modificar s e ih
    | eliminar codigo s _ ih => exact indiceFiel_eliminar s codigo ih
  exact key

/-! ## The maps stay in key order -/

theorem menorLista_irrefl (a : List Char) : menorLista a a = false := by
  induction a with
  | nil => rfl
  | cons x a ih => simp [menorLista, ih]

theorem menorLista_trans (a b c : List Char) (h1 : menorLista a b = true)
    (h2 : menorLista b c = true) : menorLista a c = true := by
  induction a generalizing b c with
  | nil =>
    cases b with
    | nil => simp [menorLista] at h1
    | cons y b =>
      cases c with
      | nil => simp [menorLista] at h2
      | cons z c => simp [menorLista]
  | cons x a ih =>
    cases b with
    | nil => simp [menorLista] at h1
    | cons y b =>
      cases c with
      | nil => simp [menorLista] at h2
      | cons z c =>
        simp only [menorLista] at h1 h2 ⊢
        by_cases hxy : x.toNat < y.toNat
        · by_cases hyz : y.toNat < z.toNat
          · have : x.toNat < z.toNat := by omega
            simp [this]
          · by_cases hyz' : y.toNat = z.toNat
            · have : x.toNat < z.toNat := by omega
              simp [this]
            · simp [hyz, hyz'] at h2
        · by_cases hxy' : x.toNat = y.toNat
          · have h1' : menorLista a b = true := by
              simpa [hxy, hxy'] using h1
            by_cases hyz : y.toNat < z.toNat
            · have : x.toNat < z.toNat := by omega
              simp [this]
            · by_cases hyz' : y.toNat = z.toNat
              · have h2' : menorLista b c = true := by
                  simpa [hyz, hyz'] using h2
                have hlt : ¬ x.toNat < z.toNat := by omega
                have heq : x.toNat = z.toNat := by omega
                simp [hlt, heq, ih b c h1' h2']
              · simp [hyz, hyz'] at h2
          · simp [hxy, hxy'] at h1

theorem char_eq_of_toNat (x y : Char) (h : x.toNat = y.toNat) : x = y := by
  apply Char.ext
  apply UInt32.ext
  exact h

theorem menorLista_total (a b : List Char) (h : a ≠ b) :
    menorLista a b = true ∨ menorLista b a = true := by
  induction a generalizing b with
  | nil =>
    cases b with
    | nil => exact absurd rfl h
    | cons y b => left; simp [menorLista]
  | cons x a ih =>
    cases b with
    | nil => right; simp [menorLista]
    | cons y b =>
      simp only [menorLista]
      by_cases hxy : x.toNat < y.toNat
      · left; simp [hxy]
      · by_cases hyx : y.toNat < x.toNat
        · right; simp [hyx]
        · have heq : x.toNat = y.toNat := by omega
          have hxe : x = y := char_eq_of_toNat x y heq
          have hab : a ≠ b := by
            intro h0; exact h (by rw [hxe, h0])
          rcases ih b hab with h0 | h0
          · left; simp [hxy, heq, h0]
          · right; simp [hyx, heq, h0]

theorem menor_trans (a b c : String) (h1 : menor a b = true) (h2 : menor b c = true) :
    menor a c = true :=
  menorLista_trans _ _ _ h1 h2

theorem menor_total (a b : String) (h : a ≠ b) : menor a b = true ∨ menor b a = true := by
  apply menorLista_total
  intro h0
  exact h (String.ext h0)

theorem Mapa.ordenado_insertar {V : Type} (k : String) (v : V) (m : Mapa V)
    (hm : Mapa.Ordenado m) (hk : k ∉ Mapa.claves m) :
    Mapa.Ordenado (Mapa.insertar k v m) := by
  induction m with
  | nil => simp [Mapa.Ordenado, Mapa.insertar, Mapa.claves]
  | cons kv m ih =>
    obtain ⟨k', v'⟩ := kv
    have hm' : List.Pairwise (fun a b => menor a b = true) (k' :: Mapa.claves m) := hm
    obtain ⟨hhead, htail⟩ := List.pairwise_cons.mp hm'
    have hne : k ≠ k' := by
      intro h0; exact hk (by simp [Mapa.claves, h0])
    have hk' : k ∉ Mapa.claves m := by
      intro h0; exact hk (List.mem_cons_of_mem _ h0)
    by_cases hlt : menor k k' = true
    · have : Mapa.insertar k v ((k', v') :: m) = (k, v) :: (k', v') :: m := by
        simp [Mapa.insertar, hlt]
      rw [this]
      show List.Pairwise (fun a b => menor a b = true) (k :: k' :: Mapa.claves m)
      refine List.pairwise_cons.mpr ⟨?_, hm'⟩
      intro x hx
      rcases List.mem_cons.mp hx with h0 | h0
      · rw [h0]; exact hlt
      · exact menor_trans _ _ _ hlt (hhead x h0)
    · have : Mapa.insertar k v ((k', v') :: m) = (k', v') :: Mapa.insertar k v m := by
        simp [Mapa.insertar, hlt]
      rw [this]
      show List.Pairwise (fun a b => menor a b = true)
        (k' :: Mapa.claves (Mapa.insertar k v m))
      refine List.pairwise_cons.mpr ⟨?_, ih htail hk'⟩
      intro x hx
      have hx' := (Mapa.claves_insertar_perm k v m).mem_iff.mp hx
      rcases List.mem_cons.mp hx' with h0 | h0
      · rw [h0]
        rcases menor_total k k' hne with h1 | h1
        · exact absurd h1 hlt
        · exact h1
      · exact hhead x h0

theorem Mapa.ordenado_asignar {V : Type} (k : String) (v : V) (m : Mapa V)
    (hm : Mapa.Ordenado m) : Mapa.Ordenado (Mapa.asignar k v m) := by
  unfold Mapa.asignar
  by_cases hc : Mapa.contiene k m = true
  · simp only [hc, if_true]
    unfold Mapa.Ordenado
    rw [Mapa.claves_reemplazar]; exact hm
  · simp only [hc, Bool.false_eq_true, if_false]
    exact Mapa.ordenado_insertar k v m hm (by rw [Mapa.mem_claves_iff]; exact hc)

theorem Mapa.ordenado_borrar {V : Type} (k : String) (m : Mapa V)
    (hm : Mapa.Ordenado m) : Mapa.Ordenado (Mapa.borrar k m) := by
  unfold Mapa.Ordenado
  rw [Mapa.claves_borrar]
  exact List.Pairwise.filter _ hm

/-- In every store reached from a store without products, the two maps hold
their entries in strictly increasing key order. -/
theorem alcanzable_ordenado (s : Tienda) (h : Alcanzable s) :
    Mapa.Ordenado s.productos_codigo ∧ Mapa.Ordenado s.productos_categoria := by
  induction h with
  | inicio s _ h2 h3 => simp [Mapa.Ordenado, Mapa.claves, h2, h3]
  | crear u e s s' salida _ hop ih =>
    obtain ⟨c, avisos, _, hs, _⟩ := agregarProducto_some u s s' e salida hop
    subst hs
    exact ⟨Mapa.ordenado_asignar _ _ _ ih.1, Mapa.ordenado_asignar _ _ _ ih.2⟩
  | modificar e s _ ih =>
    cases hb : Mapa.buscar e.codigo s.productos_codigo with
    | none => rw [modificarProducto_none s e hb]; exact ih
    | some hallado =>
      rw [modificarProducto_some s e hallado hb]
      exact ⟨Mapa.ordenado_asignar _ _ _ ih.1, Mapa.ordenado_asignar _ _ _ ih.2⟩
  | eliminar codigo s _ ih =>
    cases hb : Mapa.buscar codigo s.productos_codigo with
    | none => rw [eliminarProducto_none s codigo hb]; exact ih
    | some hallado =>
      rw [eliminarProducto_some s codigo hallado hb]
      exact ⟨Mapa.ordenado_borrar _ _ ih.1, Mapa.ordenado_asignar _ _ _ ih.2⟩

/-! ## Lemmas on the text streams -/

theorem takeWhile_prefijo {α : Type} (p : α → Bool) (l : List α) (c : α) (r : List α)
    (hl : ∀ x ∈ l, p x = true) (hc : p c = false) :
    (l ++ c :: r).takeWhile p = l := by
  induction l with
  | nil => simp [List.takeWhile, hc]
  | cons a l ih =>
    have ha : p a = true := hl a (List.mem_cons_self _ _)
    have := ih (fun x hx => hl x (List.mem_cons_of_mem _ hx))
    simp [List.takeWhile, ha, this]

theorem dropWhile_prefijo {α : Type} (p : α → Bool) (l : List α) (c : α) (r : List α)
    (hl : ∀ x ∈ l, p x = true) (hc : p c = false) :
    (l ++ c :: r).dropWhile p = c :: r := by
  induction l with
  | nil => simp [List.dropWhile, hc]
  | cons a l ih =>
    have ha : p a = true := hl a (List.mem_cons_self _ _)
    have := ih (fun x hx => hl x (List.mem_cons_of_mem _ hx))
    simp [List.dropWhile, ha, this]

theorem saltarEspacios_cons (c : Char) (s : List Char) (hc : esEspacio c = true) :
    saltarEspacios (c :: s) = saltarEspacios s := by
  simp [saltarEspacios, List.dropWhile, hc]

theorem saltarEspacios_inicio (c : Char) (s : List Char) (hc : esEspacio c = false) :
    saltarEspacios (c :: s) = c :: s := by
  simp [saltarEspacios, List.dropWhile, hc]

theorem leerCadena_cons (c : Char) (s : List Char) (hc : esEspacio c = true) :
    leerCadena (c :: s) = leerCadena s := by
  simp [leerCadena, saltarEspacios_cons c s hc]

/-- A word followed by whitespace is extracted whole. -/
theorem leerCadena_palabra (t : String) (ht : esPalabra t = true) (c : Char)
    (resto : List Char) (hc : esEspacio c = true) :
    leerCadena (t.data ++ c :: resto) = some (t, c :: resto) := by
  obtain ⟨l⟩ := t
  simp only [esPalabra, sinEspacios, Bool.and_eq_true, Bool.not_eq_true',
    List.isEmpty_eq_false, List.all_eq_true] at ht
  obtain ⟨hne, hall⟩ := ht
  cases l with
  | nil => exact absurd rfl hne
  | cons a l =>
    have ha : esEspacio a = false := by simpa using hall a (List.mem_cons_self _ _)
    have hl : ∀ x ∈ l, (fun x => !esEspacio x) x = true := by
      intro x hx
      simp [hall x (List.mem_cons_of_mem _ hx)]
    have hc' : (fun x => !esEspacio x) c = false := by simp [hc]
    show leerCadena (a :: (l ++ c :: resto)) = _
    simp only [leerCadena, saltarEspacios_inicio a _ ha]
    rw [takeWhile_prefijo _ l c resto hl hc', dropWhile_prefijo _ l c resto hl hc']

theorem digitChar_props (d : Nat) (hd : d < 10) :
    esDigito (Nat.digitChar d) = true ∧ (Nat.digitChar d).toNat - 48 = d ∧
    esEspacio (Nat.digitChar d) = false ∧ Nat.digitChar d ≠ '-' ∧
    Nat.digitChar d ≠ '+' := by
  interval_cases d <;> decide

theorem esDigito_no_espacio (c : Char) (h : esEspacio c = true) : esDigito c = false := by
  simp only [esEspacio, decide_eq_true_eq] at h
  rcases h with h | h | h | h | h | h <;> subst h <;> decide

theorem valorDigitos_append (ds : List Char) (c : Char) :
    valorDigitos (ds ++ [c]) = 10 * valorDigitos ds + (c.toNat - 48) := by
  simp [valorDigitos, List.foldl_append]

/-- The digits written for a number: a non-empty run of digits whose value
is the number. -/
theorem digitosDe_spec (f n : Nat) (acc : List Char) (h : n < f) :
    ∃ ds, digitosDe f n acc = ds ++ acc ∧ ds ≠ [] ∧
      (∀ c ∈ ds, esDigito c = true) ∧ valorDigitos ds = n := by
  induction f generalizing n acc with
  | zero => omega
  | succ f ih =>
    have hd := digitChar_props (n % 10) (Nat.mod_lt _ (by decide))
    by_cases h0 : n / 10 = 0
    · refine ⟨[Nat.digitChar (n % 10)], by simp [digitosDe, h0], by simp, ?_, ?_⟩
      · intro c hc
        rw [List.mem_singleton] at hc
        rw [hc]; exact hd.1
      · have hmod : n % 10 = n := by omega
        have := hd.2.1
        simp only [valorDigitos, List.foldl_cons, List.foldl_nil, Nat.mul_zero,
          Nat.zero_add, this]
        exact hmod
    · have hlt : n / 10 < f := by omega
      obtain ⟨ds, h1, _, h3, h4⟩ := ih (n / 10) (Nat.digitChar (n % 10) :: acc) hlt
      refine ⟨ds ++ [Nat.digitChar (n % 10)], ?_, by simp, ?_, ?_⟩
      · simp [digitosDe, h0, h1]
      · intro c hc
        rcases List.mem_append.mp hc with hc | hc
        · exact h3 c hc
        · rw [List.mem_singleton] at hc
          rw [hc]; exact hd.1
      · rw [valorDigitos_append, h4, hd.2.1]; omega

theorem escribirNat_spec (n : Nat) :
    ∃ d ds, escribirNat n = d :: ds ∧ (∀ c ∈ d :: ds, esDigito c = true) ∧
      valorDigitos (d :: ds) = n := by
  obtain ⟨l, h1, h2, h3, h4⟩ := digitosDe_spec (n + 1) n [] (Nat.lt_succ_self n)
  cases l with
  | nil => exact absurd rfl h2
  | cons d ds => exact ⟨d, ds, by simpa [escribirNat] using h1, h3, h4⟩

theorem esDigito_props (c : Char) (h : esDigito c = true) :
    esEspacio c = false ∧ c ≠ '-' ∧ c ≠ '+' := by
  simp only [esDigito, decide_eq_true_eq] at h
  refine ⟨?_, ?_, ?_⟩
  · by_contra hcon
    have hsp : esEspacio c = true := by simpa using hcon
    simp only [esEspacio, decide_eq_true_eq] at hsp
    rcases hsp with h' | h' | h' | h' | h' | h' <;> subst h' <;> revert h <;> decide
  · intro h'; subst h'; revert h; decide
  · intro h'; subst h'; revert h; decide

theorem leerDigitos_digitos (d : Char) (ds : List Char) (c : Char) (resto : List Char)
    (hds : ∀ x ∈ d :: ds, esDigito x = true) (hc : esDigito c = false) :
    leerDigitos (d :: ds ++ c :: resto) = some (valorDigitos (d :: ds), c :: resto) := by
  unfold leerDigitos
  rw [takeWhile_prefijo esDigito (d :: ds) c resto hds hc,
    dropWhile_prefijo esDigito (d :: ds) c resto hds hc]
  simp

theorem leerNumero_cons (c : Char) (s : List Char) (hc : esEspacio c = true) :
    leerNumero (c :: s) = leerNumero s := by
  simp [leerNumero, saltarEspacios_cons c s hc]

/-- The text written for an `int` is parsed back to it before whitespace. -/
theorem leerNumero_escribirEntero (n : Int) (c : Char) (resto : List Char)
    (hc : esEspacio c = true) :
    leerNumero (escribirEntero n ++ c :: resto) = some (n, c :: resto) := by
  obtain ⟨d, ds, h1, h2, h3⟩ := escribirNat_spec n.natAbs
  have hcd := esDigito_no_espacio c hc
  have hd := esDigito_props d (h2 d (List.mem_cons_self _ _))
  by_cases hn : n < 0
  · have hsp : esEspacio '-' = false := by decide
    simp only [escribirEntero, hn, if_true, h1, List.cons_append, leerNumero,
      saltarEspacios_inicio '-' _ hsp]
    have := leerDigitos_digitos d ds c resto h2 hcd
    simp only [List.cons_append] at this
    simp only [this, h3]
    simp only [if_true, Option.some.injEq, Prod.mk.injEq, and_true]
    omega
  · simp only [escribirEntero, hn, if_false, h1, List.cons_append, leerNumero,
      saltarEspacios_inicio d _ hd.1, hd.2.1, hd.2.2]
    have := leerDigitos_digitos d ds c resto h2 hcd
    simp only [List.cons_append] at this
    simp only [this, h3]
    simp only [Option.some.injEq, Prod.mk.injEq, and_true]
    omega

theorem leerEntero_cons (c : Char) (s : List Char) (hc : esEspacio c = true) :
    leerEntero (c :: s) = leerEntero s := by
  simp [leerEntero, leerNumero_cons c s hc]

theorem leerEntero_escribirEntero (n : Int) (hn : enRangoInt n = true) (c : Char)
    (resto : List Char) (hc : esEspacio c = true) :
    leerEntero (escribirEntero n ++ c :: resto) = some (n, c :: resto) := by
  simp [leerEntero, leerNumero_escribirEntero n c resto hc, hn]

theorem leerBool_cons (c : Char) (s : List Char) (hc : esEspacio c = true) :
    leerBool (c :: s) = leerBool s := by
  simp [leerBool, leerNumero_cons c s hc]

theorem leerBool_escribirBool (b : Bool) (c : Char) (resto : List Char)
    (hc : esEspacio c = true) :
    leerBool (escribirBool b ++ c :: resto) = some (b, c :: resto) := by
  have h0 : escribirBool false = escribirEntero 0 := by decide
  have h1 : escribirBool true = escribirEntero 1 := by decide
  cases b with
  | false => simp [leerBool, h0, leerNumero_escribirEntero 0 c resto hc]
  | true => simp [leerBool, h1, leerNumero_escribirEntero 1 c resto hc]

/-! ## Reading back the lines written -/

theorem leerRegistros_lineas {α β : Type} (leer : List Char → Option (β × List Char))
    (linea : α → List Char) (f : α → β)
    (hskip : ∀ s, leer ('\n' :: s) = leer s) (hfin : leer [] = none)
    (xs : List α)
    (hx : ∀ x ∈ xs, ∀ resto, leer (linea x ++ resto) = some (f x, '\n' :: resto)) :
    ∀ n, xs.length ≤ n →
      leerRegistros leer n (xs.flatMap linea) = xs.map f ∧
      leerRegistros leer n ('\n' :: xs.flatMap linea) = xs.map f := by
  induction xs with
  | nil =>
    intro n _
    cases n with
    | zero => simp [leerRegistros]
    | succ m => simp [leerRegistros, hskip, hfin]
  | cons x xs ih =>
    intro n hn
    cases n with
    | zero => simp at hn
    | succ m =>
      have hm : xs.length ≤ m := by simpa using hn
      have ih' := ih (fun y hy => hx y (List.mem_cons_of_mem _ hy)) m hm
      have h1 := hx x (List.mem_cons_self _ _) (xs.flatMap linea)
      have e : (x :: xs).flatMap linea = linea x ++ xs.flatMap linea := by
        simp [List.flatMap_cons]
      rw [e]
      constructor
      · simp only [leerRegistros, h1, ih'.2, List.map_cons]
      · simp only [leerRegistros, hskip, h1, ih'.2, List.map_cons]

theorem length_flatMap_lineas {α : Type} (linea : α → List Char) (xs : List α)
    (hne : ∀ x ∈ xs, 1 ≤ (linea x).length) : xs.length ≤ (xs.flatMap linea).length := by
  induction xs with
  | nil => simp
  | cons x xs ih =>
    have h1 := hne x (List.mem_cons_self _ _)
    have h2 := ih (fun y hy => hne y (List.mem_cons_of_mem _ hy))
    simp only [List.flatMap_cons, List.length_append, List.length_cons]
    omega

/-- The read loop over the text of the lines of `xs` yields the records read
from each line, when each line reads back and is not empty. -/
theorem registrosDe_lineas {α β : Type} (leer : List Char → Option (β × List Char))
    (linea : α → List Char) (f : α → β)
    (hskip : ∀ s, leer ('\n' :: s) = leer s) (hfin : leer [] = none)
    (xs : List α) (hne : ∀ x ∈ xs, 1 ≤ (linea x).length)
    (hx : ∀ x ∈ xs, ∀ resto, leer (linea x ++ resto) = some (f x, '\n' :: resto)) :
    registrosDe leer (some (xs.flatMap linea)) = xs.map f :=
  (leerRegistros_lineas leer linea f hskip hfin xs hx _
    (length_flatMap_lineas linea xs hne)).1

theorem espacio_blanco : esEspacio ' ' = true := by decide

theorem espacio_salto : esEspacio '\n' = true := by decide

theorem leerCadena_nil : leerCadena [] = none := by
  simp [leerCadena, saltarEspacios]

theorem leerNumero_nil : leerNumero [] = none := by
  simp [leerNumero, saltarEspacios]

theorem leerCliente_linea (u : Indeterminado) (c : Cliente) (h : ClienteLegible c)
    (resto : List Char) :
    leerCliente u (lineaCliente c ++ resto) =
      some (Cliente.persistido u c, '\n' :: resto) := by
  obtain ⟨h1, h2, h3, h4, h5, h6⟩ := h
  have e : lineaCliente c ++ resto = c.nombre.data ++ ' ' :: (c.apellido.data ++ ' ' ::
      (c.telefono.data ++ ' ' :: (c.correo.data ++ ' ' :: (c.direccion.data ++ ' ' ::
      (c.nit.data ++ '\n' :: resto))))) := by
    simp [lineaCliente, List.append_assoc]
  have r1 := fun R => leerCadena_palabra c.nombre h1 ' ' R espacio_blanco
  have r2 := fun R => leerCadena_palabra c.apellido h2 ' ' R espacio_blanco
  have r3 := fun R => leerCadena_palabra c.telefono h3 ' ' R espacio_blanco
  have r4 := fun R => leerCadena_palabra c.correo h4 ' ' R espacio_blanco
  have r5 := fun R => leerCadena_palabra c.direccion h5 ' ' R espacio_blanco
  have r6 := fun R => leerCadena_palabra c.nit h6 '\n' R espacio_salto
  have sk := fun R => leerCadena_cons ' ' R espacio_blanco
  rw [e]
  simp only [leerCliente, r1, r2, r3, r4, r5, r6, sk]
  rfl

theorem leerProveedor_linea (u : Indeterminado) (p : Proveedor) (h : ProveedorLegible p)
    (resto : List Char) :
    leerProveedor u (lineaProveedor p ++ resto) =
      some (Proveedor.persistido p, '\n' :: resto) := by
  obtain ⟨h1, h2, h3, h4⟩ := h
  have e : lineaProveedor p ++ resto = escribirEntero p.id ++ ' ' :: (p.nombre.data ++ ' ' ::
      (p.telefono.data ++ ' ' :: (p.correo.data ++ '\n' :: resto))) := by
    simp [lineaProveedor, List.append_assoc]
  have r1 := fun R => leerEntero_escribirEntero p.id h1 ' ' R espacio_blanco
  have r2 := fun R => leerCadena_palabra p.nombre h2 ' ' R espacio_blanco
  have r3 := fun R => leerCadena_palabra p.telefono h3 ' ' R espacio_blanco
  have r4 := fun R => leerCadena_palabra p.correo h4 '\n' R espacio_salto
  have sk := fun R => leerCadena_cons ' ' R espacio_blanco
  rw [e]
  simp only [leerProveedor, r1, r2, r3, r4, sk]
  rfl

theorem leerProducto_linea (num : Numerico) (u : Indeterminado) (p : Producto)
    (h : ProductoLegible num p) (resto : List Char) :
    leerProducto num u (lineaProducto num p ++ resto) =
      some (Producto.persistido u p, '\n' :: resto) := by
  obtain ⟨h1, h2, h3, h4, h5, h6, h7⟩ := h
  have e : lineaProducto num p ++ resto = p.codigo.data ++ ' ' :: (p.nombre.data ++ ' ' ::
      (num.escribirFlotante p.precio ++ ' ' :: (escribirEntero p.cantidad ++ ' ' ::
      (p.descripcion.data ++ ' ' :: (p.categoria.data ++ ' ' ::
      (p.proveedor.nombre.data ++ ' ' :: (escribirBool p.estado ++ '\n' :: resto))))))) := by
    simp [lineaProducto, List.append_assoc]
  have r1 := fun R => leerCadena_palabra p.codigo h1 ' ' R espacio_blanco
  have r2 := fun R => leerCadena_palabra p.nombre h2 ' ' R espacio_blanco
  have r3 := fun R => h3 ' ' R espacio_blanco
  have r4 := fun R => leerEntero_escribirEntero p.cantidad h4 ' ' R espacio_blanco
  have r5 := fun R => leerCadena_palabra p.descripcion h5 ' ' R espacio_blanco
  have r6 := fun R => leerCadena_palabra p.categoria h6 ' ' R espacio_blanco
  have r7 := fun R => leerCadena_palabra p.proveedor.nombre h7 ' ' R espacio_blanco
  have r8 := fun R => leerBool_escribirBool p.estado '\n' R espacio_salto
  have sk := fun R => leerCadena_cons ' ' R espacio_blanco
  have sk2 := fun R => leerEntero_cons ' ' R espacio_blanco
  have sk3 := fun R => leerBool_cons ' ' R espacio_blanco
  rw [e]
  simp only [leerProducto, r1, r2, r3, r4, r5, r6, r7, r8, sk, sk2, sk3]
  rfl

theorem leerVenta_linea (num : Numerico) (u : Indeterminado) (v : Venta)
    (h : VentaLegible num v) (resto : List Char) :
    leerVenta num u (lineaVenta num v ++ resto) =
      some (Venta.persistida u v, '\n' :: resto) := by
  obtain ⟨h1, h2, h3, h4, h5⟩ := h
  have e : lineaVenta num v ++ resto = escribirEntero v.nro_venta ++ ' ' ::
      (v.fecha.data ++ ' ' :: (v.cliente.nombre.data ++ ' ' ::
      (num.escribirFlotante v.total ++ ' ' :: (v.vendedor.nombre.data ++ '\n' :: resto)))) := by
    simp [lineaVenta, List.append_assoc]
  have r1 := fun R => leerEntero_escribirEntero v.nro_venta h1 ' ' R espacio_blanco
  have r2 := fun R => leerCadena_palabra v.fecha h2 ' ' R espacio_blanco
  have r3 := fun R => leerCadena_palabra v.cliente.nombre h3 ' ' R espacio_blanco
  have r4 := fun R => h4 ' ' R espacio_blanco
  have r5 := fun R => leerCadena_palabra v.vendedor.nombre h5 '\n' R espacio_salto
  have sk := fun R => leerCadena_cons ' ' R espacio_blanco
  rw [e]
  simp only [leerVenta, r1, r2, r3, r4, r5, sk]
  rfl

theorem leerVendedor_linea (num : Numerico) (u : Indeterminado) (v : Vendedor)
    (h : VendedorLegible num v) (resto : List Char) :
    leerVendedor num u (lineaVendedor num v ++ resto) =
      some (Vendedor.persistido u v, '\n' :: resto) := by
  obtain ⟨h1, h2, h3, h4, h5, h6, h7⟩ := h
  have e : lineaVendedor num v ++ resto = v.nombre.data ++ ' ' :: (v.apellido.data ++ ' ' ::
      (v.telefono.data ++ ' ' :: (v.correo.data ++ ' ' :: (v.direccion.data ++ ' ' ::
      (num.escribirFlotante v.salario ++ ' ' ::
      (num.escribirDoble v.ventas_realizadas ++ '\n' :: resto)))))) := by
    simp [lineaVendedor, List.append_assoc]
  have r1 := fun R => leerCadena_palabra v.nombre h1 ' ' R espacio_blanco
  have r2 := fun R => leerCadena_palabra v.apellido h2 ' ' R espacio_blanco
  have r3 := fun R => leerCadena_palabra v.telefono h3 ' ' R espacio_blanco
  have r4 := fun R => leerCadena_palabra v.correo h4 ' ' R espacio_blanco
  have r5 := fun R => leerCadena_palabra v.direccion h5 ' ' R espacio_blanco
  have r6 := fun R => h6 ' ' R espacio_blanco
  have r7 := fun R => h7 '\n' R espacio_salto
  have sk := fun R => leerCadena_cons ' ' R espacio_blanco
  rw [e]
  simp only [leerVendedor, r1, r2, r3, r4, r5, r6, r7, sk]
  rfl

/-! ## Saving, then loading -/

theorem foldl_cargarProducto (l : List Producto) (s : Tienda) :
    (l.foldl cargarProducto s).productos = s.productos ++ l ∧
    (l.foldl cargarProducto s).clientes = s.clientes ∧
    (l.foldl cargarProducto s).ventas = s.ventas ∧
    (l.foldl cargarProducto s).vendedores = s.vendedores ∧
    (l.foldl cargarProducto s).proveedores = s.proveedores := by
  induction l generalizing s with
  | nil => simp
  | cons p l ih =>
    obtain ⟨h1, h2, h3, h4, h5⟩ := ih (cargarProducto s p)
    simp only [List.foldl_cons, h1, h2, h3, h4, h5]
    simp [cargarProducto]

theorem vaciarProveedores_spec (cola : List Proveedor) (texto : List Char) :
    vaciarProveedores cola texto = ([], texto ++ cola.flatMap lineaProveedor) := by
  induction cola generalizing texto with
  | nil => simp [vaciarProveedores]
  | cons p cola ih => simp [vaciarProveedores, ih, List.flatMap_cons]

/-- C4, as amended. Load the five texts that `guardarInformacion` writes for a
store into the empty store. For each kind of record, if every field that the
kind's line carries is a non-empty string without whitespace, a value of
`int`, or a floating-point value whose text reads back as the same value, then
the collection comes back with the same records in the same order, equal on
every field that the line carries; the fields that the line does not carry
(the `id` of a customer or seller, the `tipo` of a supplier, and all but the
name of the supplier, customer or seller embedded in a product or sale) are
those of a default-initialised record. -/
theorem guardar_cargar_persistido (num : Numerico) (u : Indeterminado) (s : Tienda) :
    ((∀ p ∈ s.productos, ProductoLegible num p) →
      (cargarInformacion num u (guardarInformacion num s).2 Tienda.vacia).productos =
        s.productos.map (Producto.persistido u)) ∧
    ((∀ c ∈ s.clientes, ClienteLegible c) →
      (cargarInformacion num u (guardarInformacion num s).2 Tienda.vacia).clientes =
        s.clientes.map (Cliente.persistido u)) ∧
    ((∀ v ∈ s.ventas, VentaLegible num v) →
      (cargarInformacion num u (guardarInformacion num s).2 Tienda.vacia).ventas =
        s.ventas.map (Venta.persistida u)) ∧
    ((∀ v ∈ s.vendedores, VendedorLegible num v) →
      (cargarInformacion num u (guardarInformacion num s).2 Tienda.vacia).vendedores =
        s.vendedores.map (Vendedor.persistido u)) ∧
    ((∀ p ∈ s.proveedores, ProveedorLegible p) →
      (cargarInformacion num u (guardarInformacion num s).2 Tienda.vacia).proveedores =
        s.proveedores.map Proveedor.persistido) := by
  refine ⟨?_, ?_, ?_, ?_, ?_⟩
  · intro h
    have hr := registrosDe_lineas (leerProducto num u) (lineaProducto num)
      (Producto.persistido u)
      (fun s => by simp [leerProducto, leerCadena_cons '\n' s espacio_salto])
      (by simp [leerProducto, leerCadena_nil]) s.productos
      (fun x _ => by simp [lineaProducto]; omega)
      (fun x hx resto => leerProducto_linea num u x (h x hx) resto)
    simp only [cargarInformacion, guardarInformacion, hr]
    rw [(foldl_cargarProducto _ Tienda.vacia).1]
    simp [Tienda.vacia]
  · intro h
    have hr := registrosDe_lineas (leerCliente u) lineaCliente (Cliente.persistido u)
      (fun s => by simp [leerCliente, leerCadena_cons '\n' s espacio_salto])
      (by simp [leerCliente, leerCadena_nil]) s.clientes
      (fun x _ => by simp [lineaCliente]; omega)
      (fun x hx resto => leerCliente_linea u x (h x hx) resto)
    simp only [cargarInformacion, guardarInformacion, hr]
    rw [(foldl_cargarProducto _ Tienda.vacia).2.1]
    simp [Tienda.vacia]
  · intro h
    have hr := registrosDe_lineas (leerVenta num u) (lineaVenta num) (Venta.persistida u)
      (fun s => by simp [leerVenta, leerEntero_cons '\n' s espacio_salto])
      (by simp [leerVenta, leerEntero, leerNumero_nil]) s.ventas
      (fun x _ => by simp [lineaVenta]; omega)
      (fun x hx resto => leerVenta_linea num u x (h x hx) resto)
    simp only [cargarInformacion, guardarInformacion, hr]
    rw [(foldl_cargarProducto _ Tienda.vacia).2.2.1]
    simp [Tienda.vacia]
  · intro h
    have hr := registrosDe_lineas (leerVendedor num u) (lineaVendedor num)
      (Vendedor.persistido u)
      (fun s => by simp [leerVendedor, leerCadena_cons '\n' s espacio_salto])
      (by simp [leerVendedor, leerCadena_nil]) s.vendedores
      (fun x _ => by simp [lineaVendedor]; omega)
      (fun x hx resto => leerVendedor_linea num u x (h x hx) resto)
    simp only [cargarInformacion, guardarInformacion, hr]
    rw [(foldl_cargarProducto _ Tienda.vacia).2.2.2.1]
    simp [Tienda.vacia]
  · intro h
    have hr := registrosDe_lineas (leerProveedor u) lineaProveedor Proveedor.persistido
      (fun s => by simp [leerProveedor, leerEntero_cons '\n' s espacio_salto])
      (by simp [leerProveedor, leerEntero, leerNumero_nil]) s.proveedores
      (fun x _ => by simp [lineaProveedor]; omega)
      (fun x hx resto => leerProveedor_linea u x (h x hx) resto)
    simp only [cargarInformacion, guardarInformacion, vaciarProveedores_spec,
      List.nil_append, hr]
    rw [(foldl_cargarProducto _ Tienda.vacia).2.2.2.2]
    simp [Tienda.vacia]

theorem ejNumerico_flotante (x : Flotante) : FlotanteLegible ejNumerico x := by
  intro c resto hc
  obtain ⟨d, ds, h1, h2, h3⟩ := escribirNat_spec x.bits
  have hd := esDigito_props d (h2 d (List.mem_cons_self _ _))
  have hl := leerDigitos_digitos d ds c resto h2 (esDigito_no_espacio c hc)
  simp only [List.cons_append] at hl
  simp only [leerFlotante, saltarEspacios_cons ' ' _ espacio_blanco, ejNumerico, h1,
    List.cons_append, saltarEspacios_inicio d _ hd.1, hl, h3]

theorem ejNumerico_doble (x : Doble) : DobleLegible ejNumerico x := by
  intro c resto hc
  obtain ⟨d, ds, h1, h2, h3⟩ := escribirNat_spec x.bits
  have hd := esDigito_props d (h2 d (List.mem_cons_self _ _))
  have hl := leerDigitos_digitos d ds c resto h2 (esDigito_no_espacio c hc)
  simp only [List.cons_append] at hl
  simp only [leerDoble, saltarEspacios_cons ' ' _ espacio_blanco, ejNumerico, h1,
    List.cons_append, saltarEspacios_inicio d _ hd.1, hl, h3]

theorem guardar_cargar_persistido_witness :
    ejLimpiaRecargada.productos =
      ejLimpia.productos.map (Producto.persistido ejIndeterminado) ∧
    ejLimpiaRecargada.clientes =
      ejLimpia.clientes.map (Cliente.persistido ejIndeterminado) ∧
    ejLimpiaRecargada.ventas = ejLimpia.ventas.map (Venta.persistida ejIndeterminado) ∧
    ejLimpiaRecargada.vendedores =
      ejLimpia.vendedores.map (Vendedor.persistido ejIndeterminado) ∧
    ejLimpiaRecargada.proveedores = ejLimpia.proveedores.map Proveedor.persistido := by
  have h := guardar_cargar_persistido ejNumerico ejIndeterminado ejLimpia
  refine ⟨h.1 ?_, h.2.1 ?_, h.2.2.1 ?_, h.2.2.2.1 ?_, h.2.2.2.2 ?_⟩
  · intro p hp
    have : p = ejChip := by simpa [ejLimpia] using hp
    subst this
    exact ⟨by decide, by decide, ejNumerico_flotante _, by decide, by decide, by decide,
      by decide⟩
  · intro c hc
    have : c = ejAna := by simpa [ejLimpia] using hc
    subst this
    exact ⟨by decide, by decide, by decide, by decide, by decide, by decide⟩
  · intro v hv
    have : v = ejVentaAna := by simpa [ejLimpia] using hv
    subst this
    exact ⟨by decide, by decide, by decide, ejNumerico_flotante _, by decide⟩
  · intro v hv
    have : v = ejLuis := by simpa [ejLimpia] using hv
    subst this
    exact ⟨by decide, by decide, by decide, by decide, by decide, ejNumerico_flotante _,
      ejNumerico_doble _⟩
  · intro p hp
    have : p = ejAcme ∨ p = ejBolt := by simpa [ejLimpia] using hp
    rcases this with h0 | h0 <;> subst h0 <;>
      exact ⟨by decide, by decide, by decide, by decide⟩

/-- C4, as stated, fails. No string field of the records below contains a
whitespace character, yet saving and loading does not give the records back:
the two products of `ejDos`, whose description is the empty string, come back
as no product at all; of the customers Eva (empty surname) and Ana one record
comes back, with the fields of both shifted into it; and the product `ejChip`,
all of whose fields are words, comes back without the telephone and e-mail of
its supplier. -/
theorem guardar_cargar_no_reproduce :
    ((∀ p ∈ ejDos.productos, p.sinEspacios = true) ∧ ejDosRecargada.productos = []) ∧
    ((∀ c ∈ ejConVacio.clientes, c.sinEspacios = true) ∧
      ejConVacioRecargada.clientes =
        [{ id := 78, nombre := "Eva", apellido := "556", telefono := "e@b",
           correo := "Sur", direccion := "124", nit := "Ana" }]) ∧
    ((∀ p ∈ ejLimpia.productos, p.sinEspacios = true) ∧
      ejLimpiaRecargada.productos =
        [{ ejChip with
            proveedor := { id := 77, nombre := "Acme", telefono := "", correo := "",
                           tipo := "" } }] ∧
      ejLimpiaRecargada.productos ≠ ejLimpia.productos) := by
  decide

/-! ## Concrete runs -/

theorem alcanzable_ejP100 : Alcanzable ejP100 :=
  Alcanzable.crear ejIndeterminado (ejEntrada ["P100"] "CPU") ejInicio ejP100 (ejSalida 0)
    (Alcanzable.inicio ejInicio rfl rfl rfl) (by decide)

theorem alcanzable_ejDos : Alcanzable ejDos :=
  Alcanzable.crear ejIndeterminado (ejEntrada ["P200"] "GPU") ejP100 ejDos (ejSalida 0)
    alcanzable_ejP100 (by decide)

theorem alcanzable_ejTres : Alcanzable ejTres :=
  Alcanzable.crear ejIndeterminado (ejEntrada ["P100", "P150"] "CPU") ejDos ejTres
    (ejSalida 1) alcanzable_ejDos (by decide)

theorem indice_fiel_en_alcanzables_witness :
    Alcanzable (eliminarProducto (modificarProducto ejTres ejMudanza).1 "P150").1 ∧
    (codigosLista (eliminarProducto (modificarProducto ejTres ejMudanza).1 "P150").1).Nodup ∧
    codigosIndice (eliminarProducto (modificarProducto ejTres ejMudanza).1 "P150").1 =
      ["P100", "P200"] ∧
    ∀ p ∈ (eliminarProducto (modificarProducto ejTres ejMudanza).1 "P150").1.productos,
      Mapa.buscar p.codigo
        (eliminarProducto (modificarProducto ejTres ejMudanza).1 "P150").1.productos_codigo =
        some p :=
  have h : Alcanzable (eliminarProducto (modificarProducto ejTres ejMudanza).1 "P150").1 :=
    Alcanzable.eliminar "P150" _ (Alcanzable.modificar ejMudanza ejTres alcanzable_ejTres)
  ⟨h, (indice_fiel_en_alcanzables _ h).1, by decide,
    (indice_fiel_en_alcanzables _ h).2.2.2⟩

/-- C1 fails on the code. From a store without products, create `P100` in
category `CPU`, create `P200` in category `GPU`, then update `P100` keeping
its category: `productos` and `productos_codigo` hold the codes `P100` and
`P200`, while both buckets of `productos_categoria` hold the record of `P200`
and no bucket holds a record with code `P100`. -/
theorem codigos_divergen_tras_modificar :
    Alcanzable (modificarProducto ejDos ejCambio).1 ∧
    codigosLista (modificarProducto ejDos ejCambio).1 = ["P100", "P200"] ∧
    codigosIndice (modificarProducto ejDos ejCambio).1 = ["P100", "P200"] ∧
    (modificarProducto ejDos ejCambio).1.productos_categoria =
      [("CPU", [ejProducto "P200" "GPU"]), ("GPU", [ejProducto "P200" "GPU"])] ∧
    codigosCategorias (modificarProducto ejDos ejCambio).1 = ["P200", "P200"] ∧
    ¬ MismosCodigos (modificarProducto ejDos ejCambio).1 := by
  refine ⟨Alcanzable.modificar ejCambio ejDos alcanzable_ejDos, by decide, by decide,
    by decide, by decide, ?_⟩
  intro h
  have h1 := (h "P100").1
  have h2 := (h "P100").2
  have : "P100" ∈ codigosCategorias (modificarProducto ejDos ejCambio).1 :=
    h2.mp (h1.mp (by decide))
  revert this
  decide

/-- C8 fails on the code. Updating `P100` in the store that holds only it,
with the category changed from `CPU` to `GPU`, leaves the old record in the
bucket of `CPU`, puts the old record in the bucket of `GPU`, and leaves the
updated record in no bucket. Updating `P100` in the store of `P100` and `P200`
with the category kept leaves the updated record in no bucket either: the
bucket of `CPU` then holds `P200`. In both runs `productos` and
`productos_codigo` hold the updated record, once. -/
theorem modificar_deja_registro_sin_cubo :
    (Alcanzable ejP100 ∧
      (modificarProducto ejP100 ejMudanza).1.productos = [ejP100Mudado] ∧
      (modificarProducto ejP100 ejMudanza).1.productos_codigo =
        [("P100", ejP100Mudado)] ∧
      (modificarProducto ejP100 ejMudanza).1.productos_categoria =
        [("CPU", [ejProducto "P100" "CPU"]), ("GPU", [ejProducto "P100" "CPU"])] ∧
      categoriasCon ejP100Mudado (modificarProducto ejP100 ejMudanza).1 = []) ∧
    (Alcanzable ejDos ∧
      (modificarProducto ejDos ejCambio).1.productos =
        [ejP100Cambiado, ejProducto "P200" "GPU"] ∧
      (modificarProducto ejDos ejCambio).1.productos_codigo =
        [("P100", ejP100Cambiado), ("P200", ejProducto "P200" "GPU")] ∧
      categoriasCon ejP100Cambiado (modificarProducto ejDos ejCambio).1 = []) :=
  ⟨⟨alcanzable_ejP100, by decide, by decide, by decide, by decide⟩,
   ⟨alcanzable_ejDos, by decide, by decide, by decide⟩⟩

/-- C9 fails on the code. In the store of `P100` and `P150` in category `CPU`
and `P200` in category `GPU`, deleting `P100` removes it from `productos` and
from `productos_codigo`, but the bucket of `CPU` becomes the content of the
bucket of `GPU`: it gains the record of `P200` and loses the record of `P150`,
which stays in `productos` and in `productos_codigo` and is in no bucket. -/
theorem eliminar_pierde_otro_producto :
    Alcanzable ejTres ∧
    (eliminarProducto ejTres "P100").1.productos =
      [ejProducto "P200" "GPU", ejProducto "P150" "CPU"] ∧
    (eliminarProducto ejTres "P100").1.productos_codigo =
      [("P150", ejProducto "P150" "CPU"), ("P200", ejProducto "P200" "GPU")] ∧
    (eliminarProducto ejTres "P100").1.productos_categoria =
      [("CPU", [ejProducto "P200" "GPU"]), ("GPU", [ejProducto "P200" "GPU"])] ∧
    categoriasCon (ejProducto "P150" "CPU") ejTres = ["CPU"] ∧
    categoriasCon (ejProducto "P150" "CPU") (eliminarProducto ejTres "P100").1 = [] ∧
    categoriasCon (ejProducto "P200" "GPU") ejTres = ["GPU"] ∧
    categoriasCon (ejProducto "P200" "GPU") (eliminarProducto ejTres "P100").1 =
      ["CPU", "GPU"] :=
  ⟨alcanzable_ejTres, by decide, by decide, by decide, by decide, by decide, by decide,
    by decide⟩

/-! ## A sale for an unknown customer -/

/-- C3, as amended. When the entered customer name is the name of no record of
`clientes`, `agregarVenta` returns after writing that the customer does not
exist and leaves the whole store as it was: no line item is added to
`detalles_ventas` and no sale is added to `ventas`. -/
theorem agregarVenta_cliente_desconocido (num : Numerico) (s : Tienda) (e : EntradaVenta)
    (h : ∀ c ∈ s.clientes, c.nombre ≠ e.nombre_cliente) :
    agregarVenta num s e =
      some (s, ["Ingrese el número de venta: ", "Ingrese la fecha de la venta: ",
        "Ingrese el nombre del cliente: ", "El cliente no existe.\n"]) := by
  have hnone : s.clientes.find? (fun cliente => decide (cliente.nombre = e.nombre_cliente)) =
      none := by
    rw [List.find?_eq_none]
    intro c hc
    simpa using h c hc
  simp [agregarVenta, hnone]

theorem agregarVenta_cliente_desconocido_witness :
    (∀ c ∈ ejTienda.clientes, c.nombre ≠ ejEntradaZoe.nombre_cliente) ∧
    agregarVenta ejNumerico ejTienda ejEntradaZoe =
      some (ejTienda, ["Ingrese el número de venta: ", "Ingrese la fecha de la venta: ",
        "Ingrese el nombre del cliente: ", "El cliente no existe.\n"]) :=
  ⟨by decide, agregarVenta_cliente_desconocido ejNumerico ejTienda ejEntradaZoe (by decide)⟩

/-- C3, as stated, fails. In `ejLimpia`, whose one customer is Ana, the entry
of a sale for `Zoe` returns with `ventas` as it was, holding the one earlier
sale: it is not the old list with a sale appended. -/
theorem agregarVenta_no_inserta_la_venta :
    (∀ c ∈ ejLimpia.clientes, c.nombre ≠ ejEntradaZoe.nombre_cliente) ∧
    agregarVenta ejNumerico ejLimpia ejEntradaZoe =
      some (ejLimpia, ["Ingrese el número de venta: ", "Ingrese la fecha de la venta: ",
        "Ingrese el nombre del cliente: ", "El cliente no existe.\n"]) ∧
    ejLimpia.ventas = [ejVentaAna] ∧
    ¬ ∃ v, ejLimpia.ventas = ejLimpia.ventas ++ [v] := by
  refine ⟨by decide, by decide, by decide, ?_⟩
  rintro ⟨v, hv⟩
  have := congrArg List.length hv
  simp [ejLimpia] at this

/-! ## Lemmas on `agregarVenta` -/

theorem leerRenglones_some (num : Numerico) (venta : Venta) (productos : List Producto)
    (rs : List EntradaRenglon) (n : Int) (detalles finales : List DetalleVenta)
    (salida : List String)
    (h : leerRenglones num venta productos rs n detalles = some (finales, salida)) :
    finales = detalles ++ renglonesHechos num venta productos rs n := by
  induction rs generalizing n detalles finales salida with
  | nil => simp [leerRenglones] at h
  | cons r resto ih =>
    cases hf : productos.find? (fun producto => decide (producto.codigo = r.codigo)) with
    | none =>
      simp only [leerRenglones, hf, Option.some.injEq, Prod.mk.injEq] at h
      simp [renglonesHechos, hf, h.1]
    | some producto =>
      by_cases hop : r.opcion = 0
      · simp only [leerRenglones, hf, hop, ne_eq, not_true_eq_false, if_false,
          Option.some.injEq, Prod.mk.injEq] at h
        rw [← h.1]
        simp [renglonesHechos, hf, hop]
      · simp only [leerRenglones, hf, hop, ne_eq, not_false_eq_true, if_true] at h
        split at h
        · simp at h
        · rename_i finales' salida' hrec
          simp only [Option.some.injEq, Prod.mk.injEq] at h
          have := ih _ _ _ _ hrec
          rw [← h.1, this]
          simp [renglonesHechos, hf, hop]

/-- What a returning call of `agregarVenta` did: nothing when the customer or
the seller is not found, else it appended the sale and the line items of the
passes of its loop. -/
theorem agregarVenta_some (num : Numerico) (s s' : Tienda) (e : EntradaVenta)
    (salida : List String) (h : agregarVenta num s e = some (s', salida)) :
    s' = s ∨
    ∃ cliente vendedor,
      s.clientes.find? (fun cliente => decide (cliente.nombre = e.nombre_cliente)) =
        some cliente ∧
      s.vendedores.find? (fun vendedor => decide (vendedor.nombre = e.nombre_vendedor)) =
        some vendedor ∧
      s' = { s with
        ventas := s.ventas ++ [ventaNueva e cliente vendedor]
        detalles_ventas := s.detalles_ventas ++
          renglonesHechos num (ventaNueva e cliente vendedor) s.productos e.renglones 1 } := by
  unfold agregarVenta at h
  cases hc : s.clientes.find? (fun cliente => decide (cliente.nombre = e.nombre_cliente)) with
  | none =>
    simp only [hc, Option.some.injEq, Prod.mk.injEq] at h
    exact Or.inl h.1.symm
  | some cliente =>
    cases hv : s.vendedores.find?
        (fun vendedor => decide (vendedor.nombre = e.nombre_vendedor)) with
    | none =>
      simp only [hc, hv, Option.some.injEq, Prod.mk.injEq] at h
      exact Or.inl h.1.symm
    | some vendedor =>
      right
      refine ⟨cliente, vendedor, rfl, rfl, ?_⟩
      simp only [hc, hv] at h
      cases hl : leerRenglones num
          { nro_venta := e.nro_venta, fecha := e.fecha, cliente := cliente,
            total := e.total, vendedor := vendedor }
          s.productos e.renglones 1 s.detalles_ventas with
      | none => simp [hl] at h
      | some res =>
        obtain ⟨finales, sal⟩ := res
        simp only [hl, Option.some.injEq, Prod.mk.injEq] at h
        have := leerRenglones_some _ _ _ _ _ _ _ _ hl
        rw [← h.1, this]
        rfl

theorem find_isSome_de_codigo (productos : List Producto) (codigo : String)
    (h : ∃ p ∈ productos, p.codigo = codigo) :
    ∃ hallado, productos.find? (fun producto => decide (producto.codigo = codigo)) =
      some hallado := by
  have : (productos.find? (fun producto => decide (producto.codigo = codigo))).isSome =
      true := by
    rw [List.find?_isSome]
    obtain ⟨p, hp, hpc⟩ := h
    exact ⟨p, hp, by simpa using hpc⟩
  exact Option.isSome_iff_exists.mp this

theorem find_none_de_codigo (productos : List Producto) (codigo : String)
    (h : ∀ p ∈ productos, p.codigo ≠ codigo) :
    productos.find? (fun producto => decide (producto.codigo = codigo)) = none := by
  rw [List.find?_eq_none]
  intro p hp
  simpa using h p hp

/-- The loop over items that all name a product and all ask for another item,
followed by an item that names no product: it returns at that item. -/
theorem leerRenglones_aborta (num : Numerico) (venta : Venta) (productos : List Producto)
    (pre : List EntradaRenglon) (r : EntradaRenglon) (post : List EntradaRenglon)
    (hpre : ∀ x ∈ pre, (∃ p ∈ productos, p.codigo = x.codigo) ∧ x.opcion ≠ 0)
    (hk : ∀ p ∈ productos, p.codigo ≠ r.codigo) (n : Int) (detalles : List DetalleVenta) :
    ∃ salida, leerRenglones num venta productos (pre ++ r :: post) n detalles =
        some (detalles ++ renglonesHechos num venta productos pre n, salida) ∧
      salida.getLast? = some avisoNoExiste := by
  induction pre generalizing n detalles with
  | nil =>
    refine ⟨["Ingrese el código del producto: ", avisoNoExiste], ?_, rfl⟩
    simp [leerRenglones, find_none_de_codigo productos r.codigo hk, renglonesHechos]
  | cons x pre ih =>
    obtain ⟨hx1, hx2⟩ := hpre x (List.mem_cons_self _ _)
    obtain ⟨hallado, hf⟩ := find_isSome_de_codigo productos x.codigo hx1
    obtain ⟨sal, h1, h2⟩ := ih (fun y hy => hpre y (List.mem_cons_of_mem _ hy)) (n + 1)
      (detalles ++
        [DetalleVenta.mk n venta hallado x.cantidad (num.mul x.cantidad hallado.precio)])
    refine ⟨["Ingrese el código del producto: ", "Ingrese la cantidad del producto: ",
      "Desea agregar otro producto a la venta? (1. Sí, 0. No): "] ++ sal, ?_, ?_⟩
    · simp [leerRenglones, hf, hx2, h1, renglonesHechos]
    · cases sal with
      | nil => simp at h2
      | cons a sal => simpa [List.getLast?_cons_cons] using h2

theorem renglonesHechos_completos (num : Numerico) (venta : Venta)
    (productos : List Producto) (pre : List EntradaRenglon)
    (hpre : ∀ x ∈ pre, (∃ p ∈ productos, p.codigo = x.codigo) ∧ x.opcion ≠ 0) (n : Int) :
    (renglonesHechos num venta productos pre n).map
        (fun d => (d.producto.codigo, d.cantidad)) =
      pre.map (fun x => (x.codigo, x.cantidad)) := by
  induction pre generalizing n with
  | nil => simp [renglonesHechos]
  | cons x pre ih =>
    obtain ⟨hx1, hx2⟩ := hpre x (List.mem_cons_self _ _)
    obtain ⟨hallado, hf⟩ := find_isSome_de_codigo productos x.codigo hx1
    have hcod : hallado.codigo = x.codigo := by simpa using List.find?_some hf
    simp [renglonesHechos, hf, hx2, hcod,
      ih (fun y hy => hpre y (List.mem_cons_of_mem _ hy)) (n + 1)]

theorem renglonesHechos_venta (num : Numerico) (venta : Venta) (productos : List Producto)
    (rs : List EntradaRenglon) (n : Int) :
    ∀ d ∈ renglonesHechos num venta productos rs n, d.venta = venta := by
  induction rs generalizing n with
  | nil => simp [renglonesHechos]
  | cons r resto ih =>
    intro d hd
    cases hf : productos.find? (fun producto => decide (producto.codigo = r.codigo)) with
    | none => simp [renglonesHechos, hf] at hd
    | some producto =>
      simp only [renglonesHechos, hf, List.mem_cons] at hd
      rcases hd with hd | hd
      · rw [hd]
      · by_cases hop : r.opcion = 0
        · simp [hop] at hd
        · simp only [hop, ne_eq, not_false_eq_true, if_true] at hd
          exact ih (n + 1) d hd

theorem renglonesHechos_subtotal (num : Numerico) (venta : Venta)
    (productos : List Producto) (rs : List EntradaRenglon) (n : Int) :
    ∀ d ∈ renglonesHechos num venta productos rs n,
      ∃ r ∈ rs, productos.find? (fun producto => decide (producto.codigo = r.codigo)) =
          some d.producto ∧
        d.cantidad = r.cantidad ∧ d.subtotal = num.mul r.cantidad d.producto.precio := by
  induction rs generalizing n with
  | nil => simp [renglonesHechos]
  | cons r resto ih =>
    intro d hd
    cases hf : productos.find? (fun producto => decide (producto.codigo = r.codigo)) with
    | none => simp [renglonesHechos, hf] at hd
    | some producto =>
      simp only [renglonesHechos, hf, List.mem_cons] at hd
      rcases hd with hd | hd
      · refine ⟨r, List.mem_cons_self _ _, ?_, ?_, ?_⟩ <;> simp [hd, hf]
      · by_cases hop : r.opcion = 0
        · simp [hop] at hd
        · simp only [hop, ne_eq, not_false_eq_true, if_true] at hd
          obtain ⟨r', hr', h1⟩ := ih (n + 1) d hd
          exact ⟨r', List.mem_cons_of_mem _ hr', h1⟩

/-! ## Sale entry -/

/-- C11. Let the entered customer and seller be found, and let the entered
line items be `pre`, then `r`, then `post`, where every item of `pre` names a
code that some product has and asks for another item, and `r`, the item
number `pre.length + 1`, names a code that no product has. Then `agregarVenta`
returns after writing that the product does not exist; the sale is appended
to `ventas`; `detalles_ventas` is the old list followed by one line item for
each item of `pre`, in order, with its code and quantity, and by nothing for
`r` and the items after it. -/
theorem agregarVenta_aborta_en_renglon (num : Numerico) (s : Tienda) (e : EntradaVenta)
    (cliente : Cliente) (vendedor : Vendedor) (pre : List EntradaRenglon)
    (r : EntradaRenglon) (post : List EntradaRenglon)
    (hc : s.clientes.find? (fun cliente => decide (cliente.nombre = e.nombre_cliente)) =
      some cliente)
    (hv : s.vendedores.find? (fun vendedor => decide (vendedor.nombre = e.nombre_vendedor)) =
      some vendedor)
    (hr : e.renglones = pre ++ r :: post)
    (hpre : ∀ x ∈ pre, (∃ p ∈ s.productos, p.codigo = x.codigo) ∧ x.opcion ≠ 0)
    (hk : ∀ p ∈ s.productos, p.codigo ≠ r.codigo) :
    ∃ salida nuevos,
      agregarVenta num s e =
        some ({ s with
          ventas := s.ventas ++ [ventaNueva e cliente vendedor]
          detalles_ventas := s.detalles_ventas ++ nuevos }, salida) ∧
      salida.getLast? = some "El producto no existe.\n" ∧
      nuevos.length = pre.length ∧
      nuevos.map (fun d => (d.producto.codigo, d.cantidad)) =
        pre.map (fun x => (x.codigo, x.cantidad)) ∧
      ∀ d ∈ nuevos, d.venta = ventaNueva e cliente vendedor := by
  obtain ⟨salida, h1, h2⟩ := leerRenglones_aborta num (ventaNueva e cliente vendedor)
    s.productos pre r post hpre hk 1 s.detalles_ventas
  have hmap := renglonesHechos_completos num (ventaNueva e cliente vendedor) s.productos
    pre hpre 1
  refine ⟨["Ingrese el número de venta: ", "Ingrese la fecha de la venta: ",
      "Ingrese el nombre del cliente: ", "Ingrese el total de la venta: ",
      "Ingrese el nombre del vendedor: "] ++ salida,
    renglonesHechos num (ventaNueva e cliente vendedor) s.productos pre 1, ?_, ?_, ?_,
    hmap, renglonesHechos_venta _ _ _ _ _⟩
  · have h1' : leerRenglones num
        { nro_venta := e.nro_venta, fecha := e.fecha, cliente := cliente,
          total := e.total, vendedor := vendedor }
        s.productos (pre ++ r :: post) 1 s.detalles_ventas = _ := h1
    simp only [agregarVenta, hc, hv, hr, h1']
    rfl
  · cases salida with
    | nil => simp at h2
    | cons a sal => simpa [List.getLast?_cons_cons, avisoNoExiste] using h2
  · simpa using congrArg List.length hmap

theorem agregarVenta_aborta_en_renglon_witness :
    ejLimpia.clientes.find? (fun cliente => decide (cliente.nombre = "Ana")) = some ejAna ∧
    ejLimpia.vendedores.find? (fun vendedor => decide (vendedor.nombre = "Luis")) =
      some ejLuis ∧
    agregarVenta ejNumerico ejLimpia ejEntradaAborta = some (ejTrasAborta, ejSalidaAborta) ∧
    ∃ salida nuevos,
      agregarVenta ejNumerico ejLimpia ejEntradaAborta =
        some ({ ejLimpia with
          ventas := ejLimpia.ventas ++ [ventaNueva ejEntradaAborta ejAna ejLuis]
          detalles_ventas := ejLimpia.detalles_ventas ++ nuevos }, salida) ∧
      salida.getLast? = some "El producto no existe.\n" ∧
      nuevos.length = 1 :=
  ⟨by decide, by decide, by decide,
    (agregarVenta_aborta_en_renglon ejNumerico ejLimpia ejEntradaAborta ejAna ejLuis
      [{ codigo := "P100", cantidad := 2, opcion := 1 }]
      { codigo := "P999", cantidad := 1, opcion := 0 } [] (by decide) (by decide) rfl
      (by decide) (by decide)).imp
      (fun _ hs => hs.imp (fun _ hn => ⟨hn.1, hn.2.1, hn.2.2.1⟩))⟩

/-- C12. When `agregarVenta` returns, either it appended nothing to `ventas`
and to `detalles_ventas`, or it appended one sale to `ventas`, whose customer
is a record of `clientes` and whose seller is a record of `vendedores` (both
lists are left as they were), and the line items it appended to
`detalles_ventas` each embed that sale, which is in `ventas` from before the
first line item is created. -/
theorem agregarVenta_referencias (num : Numerico) (s s' : Tienda) (e : EntradaVenta)
    (salida : List String) (h : agregarVenta num s e = some (s', salida)) :
    s'.clientes = s.clientes ∧ s'.vendedores = s.vendedores ∧
    ((s'.ventas = s.ventas ∧ s'.detalles_ventas = s.detalles_ventas) ∨
     ∃ venta nuevos, s'.ventas = s.ventas ++ [venta] ∧
       venta.cliente ∈ s.clientes ∧ venta.vendedor ∈ s.vendedores ∧
       s'.detalles_ventas = s.detalles_ventas ++ nuevos ∧
       ∀ d ∈ nuevos, d.venta = venta ∧ d.venta ∈ s.ventas ++ [venta]) := by
  rcases agregarVenta_some num s s' e salida h with h0 | ⟨cliente, vendedor, hc, hv, h0⟩
  · subst h0
    exact ⟨rfl, rfl, Or.inl ⟨rfl, rfl⟩⟩
  · subst h0
    refine ⟨rfl, rfl, Or.inr ⟨ventaNueva e cliente vendedor, _, rfl,
      List.mem_of_find?_eq_some hc, List.mem_of_find?_eq_some hv, rfl, ?_⟩⟩
    intro d hd
    have := renglonesHechos_venta _ _ _ _ _ d hd
    exact ⟨this, by simp [this]⟩

theorem agregarVenta_referencias_witness :
    agregarVenta ejNumerico ejLimpia ejEntradaDos = some (ejTrasDos, ejSalidaDos) ∧
    ejTrasDos.clientes = ejLimpia.clientes ∧ ejTrasDos.vendedores = ejLimpia.vendedores ∧
    ((ejTrasDos.ventas = ejLimpia.ventas ∧
        ejTrasDos.detalles_ventas = ejLimpia.detalles_ventas) ∨
     ∃ venta nuevos, ejTrasDos.ventas = ejLimpia.ventas ++ [venta] ∧
       venta.cliente ∈ ejLimpia.clientes ∧ venta.vendedor ∈ ejLimpia.vendedores ∧
       ejTrasDos.detalles_ventas = ejLimpia.detalles_ventas ++ nuevos ∧
       ∀ d ∈ nuevos, d.venta = venta ∧ d.venta ∈ ejLimpia.ventas ++ [venta]) :=
  ⟨by decide,
    agregarVenta_referencias ejNumerico ejLimpia ejTrasDos ejEntradaDos ejSalidaDos
      (by decide)⟩

/-- C13. When `agregarVenta` returns, every line item it appended to
`detalles_ventas` comes from an entered item: its product snapshot is the
first record of `productos` with the entered code, its quantity is the
entered quantity, and its subtotal is the product `int * float` of the
entered quantity and the price of that record. -/
theorem agregarVenta_subtotal (num : Numerico) (s s' : Tienda) (e : EntradaVenta)
    (salida : List String) (h : agregarVenta num s e = some (s', salida)) :
    s'.productos = s.productos ∧
    ∃ nuevos, s'.detalles_ventas = s.detalles_ventas ++ nuevos ∧
      ∀ d ∈ nuevos, ∃ r ∈ e.renglones, ∃ antes despues,
        s.productos = antes ++ d.producto :: despues ∧
        d.producto.codigo = r.codigo ∧ (∀ q ∈ antes, q.codigo ≠ r.codigo) ∧
        d.cantidad = r.cantidad ∧
        d.subtotal = num.mul r.cantidad d.producto.precio := by
  rcases agregarVenta_some num s s' e salida h with h0 | ⟨cliente, vendedor, _, _, h0⟩
  · subst h0
    exact ⟨rfl, [], by simp, by simp⟩
  · subst h0
    refine ⟨rfl, _, rfl, ?_⟩
    intro d hd
    obtain ⟨r, hr, hf, hcant, hsub⟩ := renglonesHechos_subtotal _ _ _ _ _ d hd
    obtain ⟨hp, antes, despues, hl, hantes⟩ := List.find?_eq_some.mp hf
    refine ⟨r, hr, antes, despues, hl, by simpa using hp, ?_, hcant, hsub⟩
    intro q hq
    simpa using hantes q hq

theorem agregarVenta_subtotal_witness :
    agregarVenta ejNumerico ejLimpia ejEntradaAborta = some (ejTrasAborta, ejSalidaAborta) ∧
    ejTrasAborta.productos = ejLimpia.productos ∧
    ∃ nuevos, ejTrasAborta.detalles_ventas = ejLimpia.detalles_ventas ++ nuevos ∧
      ∀ d ∈ nuevos, ∃ r ∈ ejEntradaAborta.renglones, ∃ antes despues,
        ejLimpia.productos = antes ++ d.producto :: despues ∧
        d.producto.codigo = r.codigo ∧ (∀ q ∈ antes, q.codigo ≠ r.codigo) ∧
        d.cantidad = r.cantidad ∧
        d.subtotal = ejNumerico.mul r.cantidad d.producto.precio :=
  ⟨by decide,
    agregarVenta_subtotal ejNumerico ejLimpia ejTrasAborta ejEntradaAborta ejSalidaAborta
      (by decide)⟩

/-! ## The supplier snapshot of a new product -/

theorem escanearProveedores_sin_coincidencia (id_proveedor : Int) (cola aux : List Proveedor)
    (prov : Proveedor) (h : ∀ q ∈ cola, q.id ≠ id_proveedor) :
    (escanearProveedores id_proveedor cola aux prov).2 = prov := by
  induction cola generalizing aux prov with
  | nil => rfl
  | cons p cola ih =>
    have hp : p.id ≠ id_proveedor := h p (List.mem_cons_self _ _)
    simp only [escanearProveedores, hp, if_false]
    exact ih _ _ (fun q hq => h q (List.mem_cons_of_mem _ hq))

theorem escanearProveedores_ultima (id_proveedor : Int) (antes : List Proveedor)
    (q : Proveedor) (despues aux : List Proveedor) (prov : Proveedor)
    (hq : q.id = id_proveedor) (h : ∀ x ∈ despues, x.id ≠ id_proveedor) :
    (escanearProveedores id_proveedor (antes ++ q :: despues) aux prov).2 = q := by
  induction antes generalizing aux prov with
  | nil =>
    simp only [List.nil_append, escanearProveedores, hq, if_true]
    exact escanearProveedores_sin_coincidencia _ _ _ _ h
  | cons a antes ih =>
    simp only [List.cons_append, escanearProveedores]
    exact ih _ _

theorem ultima_coincidencia (id_proveedor : Int) (cola : List Proveedor)
    (h : ∃ q ∈ cola, q.id = id_proveedor) :
    ∃ antes q despues, cola = antes ++ q :: despues ∧ q.id = id_proveedor ∧
      ∀ x ∈ despues, x.id ≠ id_proveedor := by
  induction cola with
  | nil => simp at h
  | cons a cola ih =>
    by_cases hcola : ∃ q ∈ cola, q.id = id_proveedor
    · obtain ⟨antes, q, despues, h1, h2, h3⟩ := ih hcola
      exact ⟨a :: antes, q, despues, by simp [h1], h2, h3⟩
    · obtain ⟨q, hq, hqid⟩ := h
      have hqa : q = a := by
        rcases List.mem_cons.mp hq with h0 | h0
        · exact h0
        · exact absurd ⟨q, h0, hqid⟩ hcola
      subst hqa
      refine ⟨[], q, cola, rfl, hqid, ?_⟩
      intro x hx hxid
      exact hcola ⟨x, hx, hxid⟩

/-- C14. Let some entered code not be a key of `productos_codigo`. Then
`agregarProducto` returns and appends the new product to `productos`, whatever
supplier id is entered. If no queued supplier has the entered id, the supplier
snapshot of the new product is the default-initialised `Proveedor`: its four
strings are empty and its `id` is the value the uninitialised member holds. If
some queued supplier has the entered id, the snapshot is the last supplier of
the queue with that id. -/
theorem agregarProducto_proveedor (u : Indeterminado) (s : Tienda) (e : EntradaProducto)
    (hcod : ∃ c ∈ e.codigos, c ∉ Mapa.claves s.productos_codigo) :
    ∃ s' salida c, agregarProducto u s e = some (s', salida) ∧
      s'.productos = s.productos ++ [productoNuevo u s e c] ∧
      ((∀ q ∈ s.proveedores, q.id ≠ e.id_proveedor) →
        (productoNuevo u s e c).proveedor =
          { id := u.idProveedor, nombre := "", telefono := "", correo := "", tipo := "" }) ∧
      ((∃ q ∈ s.proveedores, q.id = e.id_proveedor) →
        ∃ antes q despues, s.proveedores = antes ++ q :: despues ∧
          q.id = e.id_proveedor ∧ (∀ x ∈ despues, x.id ≠ e.id_proveedor) ∧
          (productoNuevo u s e c).proveedor = q) := by
  have hsome : (leerCodigo s.productos_codigo e.codigos).isSome = true := by
    rw [leerCodigo_isSome]
    obtain ⟨c, hc, hcc⟩ := hcod
    exact ⟨c, hc, by simpa [Mapa.mem_claves_iff] using hcc⟩
  cases hop : agregarProducto u s e with
  | none =>
    cases hr : leerCodigo s.productos_codigo e.codigos with
    | none => simp [hr] at hsome
    | some r => simp [agregarProducto, hr] at hop
  | some res =>
    obtain ⟨s', salida⟩ := res
    obtain ⟨c, avisos, _, hs, _⟩ := agregarProducto_some u s s' e salida hop
    subst hs
    refine ⟨_, salida, c, rfl, rfl, ?_, ?_⟩
    · intro hno
      exact escanearProveedores_sin_coincidencia _ _ _ _ hno
    · intro hsi
      obtain ⟨antes, q, despues, h1, h2, h3⟩ := ultima_coincidencia _ _ hsi
      refine ⟨antes, q, despues, h1, h2, h3, ?_⟩
      show (escanearProveedores e.id_proveedor s.proveedores [] (Proveedor.inicial u)).2 = q
      rw [h1]
      exact escanearProveedores_ultima _ _ _ _ _ _ h2 h3

theorem agregarProducto_proveedor_witness :
    (∃ c ∈ ejEntradaSinProveedor.codigos, c ∉ Mapa.claves ejDos.productos_codigo) ∧
    (∀ q ∈ ejDos.proveedores, q.id ≠ ejEntradaSinProveedor.id_proveedor) ∧
    ∃ s' salida c, agregarProducto ejIndeterminado ejDos ejEntradaSinProveedor =
        some (s', salida) ∧
      s'.productos = ejDos.productos ++
        [productoNuevo ejIndeterminado ejDos ejEntradaSinProveedor c] ∧
      (productoNuevo ejIndeterminado ejDos ejEntradaSinProveedor c).proveedor =
        { id := 77, nombre := "", telefono := "", correo := "", tipo := "" } := by
  have hc : ∃ c ∈ ejEntradaSinProveedor.codigos, c ∉ Mapa.claves ejDos.productos_codigo :=
    ⟨"P300", by decide, by decide⟩
  have hq : ∀ q ∈ ejDos.proveedores, q.id ≠ ejEntradaSinProveedor.id_proveedor := by decide
  obtain ⟨s', salida, c, h1, h2, h3, _⟩ :=
    agregarProducto_proveedor ejIndeterminado ejDos ejEntradaSinProveedor hc
  exact ⟨hc, hq, s', salida, c, h1, h2, h3 hq⟩

/-! ## Loading the products file -/

theorem Mapa.mem_of_buscar {V : Type} (k : String) (v : V) (m : Mapa V)
    (h : Mapa.buscar k m = some v) : (k, v) ∈ m := by
  induction m with
  | nil => simp [Mapa.buscar] at h
  | cons kv m ih =>
    obtain ⟨k', v'⟩ := kv
    by_cases hk : k' = k
    · subst hk
      simp only [Mapa.buscar, if_true, Option.some.injEq] at h
      subst h
      exact List.mem_cons_self _ _
    · simp only [Mapa.buscar, hk, if_false] at h
      exact List.mem_cons_of_mem _ (ih h)

theorem Mapa.mem_reemplazar {V : Type} (k : String) (v : V) (m : Mapa V) (kv : String × V)
    (h : kv ∈ Mapa.reemplazar k v m) : kv = (k, v) ∨ kv ∈ m := by
  induction m with
  | nil => simp [Mapa.reemplazar] at h
  | cons e m ih =>
    obtain ⟨k', v'⟩ := e
    by_cases hk : k' = k
    · subst hk
      simp only [Mapa.reemplazar, if_true, List.mem_cons] at h
      rcases h with h | h
      · exact Or.inl h
      · exact Or.inr (List.mem_cons_of_mem _ h)
    · simp only [Mapa.reemplazar, hk, if_false, List.mem_cons] at h
      rcases h with h | h
      · exact Or.inr (by rw [h]; exact List.mem_cons_self _ _)
      · rcases ih h with h0 | h0
        · exact Or.inl h0
        · exact Or.inr (List.mem_cons_of_mem _ h0)

theorem Mapa.mem_insertar {V : Type} (k : String) (v : V) (m : Mapa V) (kv : String × V)
    (h : kv ∈ Mapa.insertar k v m) : kv = (k, v) ∨ kv ∈ m := by
  induction m with
  | nil => simpa [Mapa.insertar] using h
  | cons e m ih =>
    obtain ⟨k', v'⟩ := e
    by_cases hlt : menor k k' = true
    · simp only [Mapa.insertar, hlt, if_true, List.mem_cons] at h
      rcases h with h | h | h
      · exact Or.inl h
      · exact Or.inr (by rw [h]; exact List.mem_cons_self _ _)
      · exact Or.inr (List.mem_cons_of_mem _ h)
    · simp only [Mapa.insertar, hlt, Bool.false_eq_true, if_false, List.mem_cons] at h
      rcases h with h | h
      · exact Or.inr (by rw [h]; exact List.mem_cons_self _ _)
      · rcases ih h with h0 | h0
        · exact Or.inl h0
        · exact Or.inr (List.mem_cons_of_mem _ h0)

theorem Mapa.mem_asignar {V : Type} (k : String) (v : V) (m : Mapa V) (kv : String × V)
    (h : kv ∈ Mapa.asignar k v m) : kv = (k, v) ∨ kv ∈ m := by
  unfold Mapa.asignar at h
  by_cases hc : Mapa.contiene k m = true
  · simp only [hc, if_true] at h
    exact Mapa.mem_reemplazar k v m kv h
  · simp only [hc, Bool.false_eq_true, if_false] at h
    exact Mapa.mem_insertar k v m kv h

theorem Mapa.mem_obtener {V : Type} (k : String) (m : Mapa (List V)) (x : V)
    (h : x ∈ Mapa.obtener k m) : ∃ b, (k, b) ∈ m ∧ x ∈ b := by
  unfold Mapa.obtener at h
  cases hb : Mapa.buscar k m with
  | none => simp [hb] at h
  | some b =>
    simp only [hb, Option.getD_some] at h
    exact ⟨b, Mapa.mem_of_buscar k b m hb, h⟩

theorem indicesReflejan_vacia : IndicesReflejan Tienda.vacia := by
  refine ⟨?_, ?_, ?_⟩ <;>
    simp [Tienda.vacia, codigosIndice, codigosLista, Mapa.claves]

theorem indicesReflejan_cargarProducto (s : Tienda) (p : Producto)
    (h : IndicesReflejan s) : IndicesReflejan (cargarProducto s p) := by
  obtain ⟨h1, h2, h3⟩ := h
  refine ⟨?_, ?_, ?_⟩
  · intro c
    show c ∈ Mapa.claves (Mapa.asignar p.codigo p s.productos_codigo) ↔
      c ∈ List.map (fun q => q.codigo) (s.productos ++ [p])
    have h1c : c ∈ Mapa.claves s.productos_codigo ↔
        c ∈ List.map (fun q => q.codigo) s.productos := h1 c
    rw [Mapa.mem_claves_asignar, h1c]
    simp only [List.map_append, List.map_cons, List.map_nil, List.mem_append,
      List.mem_singleton]
    exact Or.comm
  · intro kv hkv q hq
    have hkv' : kv ∈ Mapa.asignar p.categoria
        (Mapa.obtener p.categoria s.productos_categoria ++ [p]) s.productos_categoria := hkv
    show q ∈ s.productos ++ [p] ∧ q.categoria = kv.1
    rcases Mapa.mem_asignar _ _ _ _ hkv' with h0 | h0
    · subst h0
      rcases List.mem_append.mp hq with hq | hq
      · obtain ⟨b, hb, hqb⟩ := Mapa.mem_obtener _ _ _ hq
        have := h2 _ hb q hqb
        exact ⟨List.mem_append_left _ this.1, this.2⟩
      · rw [List.mem_singleton] at hq
        subst hq
        exact ⟨by simp, rfl⟩
    · have := h2 kv h0 q hq
      exact ⟨List.mem_append_left _ this.1, this.2⟩
  · intro q hq
    have hq' : q ∈ s.productos ++ [p] := hq
    show q ∈ Mapa.obtener q.categoria (Mapa.asignar p.categoria
      (Mapa.obtener p.categoria s.productos_categoria ++ [p]) s.productos_categoria)
    by_cases hcat : q.categoria = p.categoria
    · rw [hcat]
      simp only [Mapa.obtener, Mapa.buscar_asignar_self, Option.getD_some]
      rcases List.mem_append.mp hq' with h0 | h0
      · have := h3 q h0
        rw [hcat] at this
        exact List.mem_append_left _ this
      · exact List.mem_append_right _ h0
    · rcases List.mem_append.mp hq' with h0 | h0
      · have := h3 q h0
        simp only [Mapa.obtener, Mapa.buscar_asignar_ne _ _ _ _ hcat]
        exact this
      · rw [List.mem_singleton] at h0
        exact absurd (by rw [h0]) hcat

theorem indicesReflejan_foldl (l : List Producto) (s : Tienda) (h : IndicesReflejan s) :
    IndicesReflejan (l.foldl cargarProducto s) := by
  induction l generalizing s with
  | nil => exact h
  | cons p l ih => exact ih _ (indicesReflejan_cargarProducto s p h)

theorem mismosCodigos_de_reflejo (s : Tienda) (h : IndicesReflejan s) : MismosCodigos s := by
  obtain ⟨h1, h2, h3⟩ := h
  intro c
  refine ⟨(h1 c).symm, ?_⟩
  rw [h1 c]
  constructor
  · intro hc
    obtain ⟨p, hp, hpc⟩ := List.mem_map.mp hc
    obtain ⟨b, hb, hpb⟩ := Mapa.mem_obtener _ _ _ (h3 p hp)
    exact List.mem_map.mpr ⟨p, List.mem_flatMap.mpr ⟨_, hb, hpb⟩, hpc⟩
  · intro hc
    obtain ⟨p, hp, hpc⟩ := List.mem_map.mp hc
    obtain ⟨kv, hkv, hpkv⟩ := List.mem_flatMap.mp hp
    exact List.mem_map.mpr ⟨p, (h2 kv hkv p hpkv).1, hpc⟩

/-- C15. For every content of the five files, the store that
`cargarInformacion` builds from the empty store has in `productos` the
records that the read loop of the products file yields, in that order (a
repeated code included, once per line); the codes of `productos`, the keys of
`productos_codigo` and the codes of the records in the buckets of
`productos_categoria` are the same set; every record of `productos` lies in
the bucket of its own category, and every bucket holds only records of
`productos` that have its category. -/
theorem cargarInformacion_indices (num : Numerico) (u : Indeterminado)
    (archivos : Archivos) :
    (cargarInformacion num u archivos Tienda.vacia).productos =
      registrosDe (leerProducto num u) archivos.productos ∧
    (∀ c : String,
      (c ∈ codigosLista (cargarInformacion num u archivos Tienda.vacia) ↔
        c ∈ codigosIndice (cargarInformacion num u archivos Tienda.vacia)) ∧
      (c ∈ codigosIndice (cargarInformacion num u archivos Tienda.vacia) ↔
        c ∈ codigosCategorias (cargarInformacion num u archivos Tienda.vacia))) ∧
    (∀ p ∈ (cargarInformacion num u archivos Tienda.vacia).productos,
      p ∈ Mapa.obtener p.categoria
        (cargarInformacion num u archivos Tienda.vacia).productos_categoria) ∧
    (∀ kv ∈ (cargarInformacion num u archivos Tienda.vacia).productos_categoria,
      ∀ p ∈ kv.2, p ∈ (cargarInformacion num u archivos Tienda.vacia).productos ∧
        p.categoria = kv.1) := by
  have hinv := indicesReflejan_foldl (registrosDe (leerProducto num u) archivos.productos)
    Tienda.vacia indicesReflejan_vacia
  have hprod := (foldl_cargarProducto
    (registrosDe (leerProducto num u) archivos.productos) Tienda.vacia).1
  have hinv' : IndicesReflejan (cargarInformacion num u archivos Tienda.vacia) := hinv
  refine ⟨?_, mismosCodigos_de_reflejo _ hinv', hinv'.2.2, hinv'.2.1⟩
  show (List.foldl cargarProducto Tienda.vacia
    (registrosDe (leerProducto num u) archivos.productos)).productos = _
  rw [hprod]
  simp [Tienda.vacia]

/-- A products file that repeats the code `P1`: both records are in
`productos`, the index holds the one key `P1` with the second record, and each
record is in the bucket of its category. -/
theorem cargarInformacion_codigo_repetido :
    (cargarInformacion ejNumerico ejIndeterminado ejArchivoRepetido Tienda.vacia).productos.map
        (fun p => (p.codigo, p.nombre, p.categoria)) =
      [("P1", "placa", "CPU"), ("P1", "disco", "SSD")] ∧
    (cargarInformacion ejNumerico ejIndeterminado ejArchivoRepetido
        Tienda.vacia).productos_codigo.map (fun kv => (kv.1, kv.2.nombre)) =
      [("P1", "disco")] ∧
    (cargarInformacion ejNumerico ejIndeterminado ejArchivoRepetido
        Tienda.vacia).productos_categoria.map
        (fun kv => (kv.1, kv.2.map (fun p => p.nombre))) =
      [("CPU", ["placa"]), ("SSD", ["disco"])] := by
  decide

/-! ## Saving empties the supplier queue -/

/-- C16. For every store, `guardarInformacion` leaves `productos`,
`productos_codigo`, `productos_categoria`, `clientes`, `ventas`, `vendedores`
and the other collections as they were, except the queue `proveedores`, which
it leaves empty, whatever it held. The text it writes to the suppliers file
is, for each supplier of the old queue, front first, one line: the decimal
text of the `id`, a space, the name, a space, the telephone, a space, the
e-mail, and a newline. Each such line is not empty, ends with the newline, and
begins with a numeral that reads back as the `id`. -/
theorem guardarInformacion_consume_proveedores (num : Numerico) (s : Tienda) :
    (guardarInformacion num s).1.productos = s.productos ∧
    (guardarInformacion num s).1.productos_codigo = s.productos_codigo ∧
    (guardarInformacion num s).1.productos_categoria = s.productos_categoria ∧
    (guardarInformacion num s).1.clientes = s.clientes ∧
    (guardarInformacion num s).1.ventas = s.ventas ∧
    (guardarInformacion num s).1.vendedores = s.vendedores ∧
    (guardarInformacion num s).1.detalles_ventas = s.detalles_ventas ∧
    (guardarInformacion num s).1.vendedores_nuevos = s.vendedores_nuevos ∧
    (guardarInformacion num s).1.clientes_nuevos = s.clientes_nuevos ∧
    (guardarInformacion num s).1.clientes_pila = s.clientes_pila ∧
    (guardarInformacion num s).1.proveedores = [] ∧
    (guardarInformacion num s).2.proveedores =
      some (s.proveedores.flatMap (fun p =>
        escribirEntero p.id ++ [' '] ++ p.nombre.data ++ [' '] ++ p.telefono.data ++
          [' '] ++ p.correo.data ++ ['\n'])) ∧
    (∀ p : Proveedor, lineaProveedor p ≠ [] ∧
      (lineaProveedor p).getLast? = some '\n' ∧
      ∀ resto : List Char,
        leerNumero (lineaProveedor p ++ resto) =
          some (p.id, [' '] ++ p.nombre.data ++ [' '] ++ p.telefono.data ++ [' '] ++
            p.correo.data ++ ['\n'] ++ resto)) := by
  refine ⟨rfl, rfl, rfl, rfl, rfl, rfl, rfl, rfl, rfl, rfl, ?_, ?_, ?_⟩
  · simp [guardarInformacion, vaciarProveedores_spec]
  · simp only [guardarInformacion, vaciarProveedores_spec, List.nil_append]
    rfl
  · intro p
    refine ⟨?_, ?_, ?_⟩
    · simp [lineaProveedor]
    · exact List.getLast?_concat _
    · intro resto
      have h := leerNumero_escribirEntero p.id ' '
        (p.nombre.data ++ [' '] ++ p.telefono.data ++ [' '] ++ p.correo.data ++ ['\n'] ++
          resto) espacio_blanco
      simpa [lineaProveedor, List.append_assoc] using h

theorem guardarInformacion_consume_proveedores_witness :
    ejLimpia.proveedores = [ejAcme, ejBolt] ∧
    (guardarInformacion ejNumerico ejLimpia).1.proveedores = [] ∧
    (guardarInformacion ejNumerico ejLimpia).1.productos = ejLimpia.productos ∧
    (guardarInformacion ejNumerico ejLimpia).2.proveedores =
      some "1 Acme 555 a@acme\n2 Bolt 777 b@bolt\n".data :=
  ⟨rfl, (guardarInformacion_consume_proveedores ejNumerico ejLimpia).2.2.2.2.2.2.2.2.2.2.1,
    (guardarInformacion_consume_proveedores ejNumerico ejLimpia).1, by decide⟩

/-! ## The frame of an update -/

theorem clavesPropias_asignar (c : String) (p : Producto) (m : Mapa Producto)
    (hp : p.codigo = c)
    (hm : ∀ (k : String) (q : Producto), Mapa.buscar k m = some q → q.codigo = k) :
    ∀ (k : String) (q : Producto), Mapa.buscar k (Mapa.asignar c p m) = some q →
      q.codigo = k := by
  intro k q hq
  by_cases hk : k = c
  · subst hk
    rw [Mapa.buscar_asignar_self] at hq
    have : p = q := Option.some.inj hq
    rw [← this]; exact hp
  · rw [Mapa.buscar_asignar_ne _ _ _ _ hk] at hq
    exact hm k q hq

theorem clavesPropias_borrar (c : String) (m : Mapa Producto)
    (hm : ∀ (k : String) (q : Producto), Mapa.buscar k m = some q → q.codigo = k) :
    ∀ (k : String) (q : Producto), Mapa.buscar k (Mapa.borrar c m) = some q →
      q.codigo = k := by
  intro k q hq
  by_cases hk : k = c
  · subst hk
    rw [Mapa.buscar_borrar_self] at hq
    exact absurd hq (by simp)
  · rw [Mapa.buscar_borrar_ne _ _ _ hk] at hq
    exact hm k q hq

theorem clavesPropias_vacia : ClavesPropias Tienda.vacia := by
  intro c p h
  simp [Tienda.vacia, Mapa.buscar] at h

theorem clavesPropias_agregarProducto (u : Indeterminado) (s s' : Tienda)
    (e : EntradaProducto) (salida : List String) (h : ClavesPropias s)
    (hop : agregarProducto u s e = some (s', salida)) : ClavesPropias s' := by
  obtain ⟨c, avisos, _, hs, _⟩ := agregarProducto_some u s s' e salida hop
  subst hs
  exact clavesPropias_asignar c _ _ rfl h

theorem clavesPropias_modificarProducto (s : Tienda) (e : EntradaModificar)
    (h : ClavesPropias s) : ClavesPropias (modificarProducto s e).1 := by
  cases hb : Mapa.buscar e.codigo s.productos_codigo with
  | none => rw [modificarProducto_none s e hb]; exact h
  | some hallado =>
    rw [modificarProducto_some s e hallado hb]
    exact clavesPropias_asignar e.codigo _ _ (h e.codigo hallado hb) h

theorem clavesPropias_eliminarProducto (s : Tienda) (codigo : String)
    (h : ClavesPropias s) : ClavesPropias (eliminarProducto s codigo).1 := by
  cases hb : Mapa.buscar codigo s.productos_codigo with
  | none => rw [eliminarProducto_none s codigo hb]; exact h
  | some hallado =>
    rw [eliminarProducto_some s codigo hallado hb]
    exact clavesPropias_borrar codigo _ h

theorem clavesPropias_foldl (l : List Producto) (s : Tienda) (h : ClavesPropias s) :
    ClavesPropias (l.foldl cargarProducto s) := by
  induction l generalizing s with
  | nil => exact h
  | cons p l ih => exact ih _ (clavesPropias_asignar p.codigo p _ rfl h)

theorem clavesPropias_cargarInformacion (num : Numerico) (u : Indeterminado)
    (archivos : Archivos) (s : Tienda) (h : ClavesPropias s) :
    ClavesPropias (cargarInformacion num u archivos s) :=
  clavesPropias_foldl _ s h

theorem clavesPropias_agregarVenta (num : Numerico) (s s' : Tienda) (e : EntradaVenta)
    (salida : List String) (h : ClavesPropias s)
    (hop : agregarVenta num s e = some (s', salida)) : ClavesPropias s' := by
  rcases agregarVenta_some num s s' e salida hop with h0 | ⟨_, _, _, _, h0⟩
  · rw [h0]; exact h
  · rw [h0]; exact h

theorem clavesPropias_guardarInformacion (num : Numerico) (s : Tienda)
    (h : ClavesPropias s) : ClavesPropias (guardarInformacion num s).1 := h

/-- C17. Let every record of the code index carry the code it is indexed
under, as in every store that the program builds, and let `hallado` be the
record indexed under the entered code. Then `modificarProducto` leaves
`productos` with the same length and the same sequence of codes: each record
with the entered code is replaced by `hallado` with the entered name, price,
quantity, description, category and state and with the code and the supplier
snapshot of `hallado`, every other record is unchanged; `productos_codigo`
maps the entered code to that same record, is unchanged under every other
key, and keeps its keys. -/
theorem modificarProducto_marco (s : Tienda) (e : EntradaModificar) (hallado : Producto)
    (hprop : ClavesPropias s)
    (hb : Mapa.buscar e.codigo s.productos_codigo = some hallado) :
    productoModificado hallado e =
      Producto.mk hallado.codigo e.nombre e.precio e.cantidad e.descripcion e.categoria
        hallado.proveedor e.estado ∧
    (modificarProducto s e).1.productos =
      s.productos.map (fun q =>
        if q.codigo = e.codigo then productoModificado hallado e else q) ∧
    (modificarProducto s e).1.productos.length = s.productos.length ∧
    (modificarProducto s e).1.productos.map (fun q => q.codigo) =
      s.productos.map (fun q => q.codigo) ∧
    Mapa.buscar e.codigo (modificarProducto s e).1.productos_codigo =
      some (productoModificado hallado e) ∧
    (∀ c, c ≠ e.codigo →
      Mapa.buscar c (modificarProducto s e).1.productos_codigo =
        Mapa.buscar c s.productos_codigo) ∧
    Mapa.claves (modificarProducto s e).1.productos_codigo =
      Mapa.claves s.productos_codigo := by
  have hcod : (productoModificado hallado e).codigo = e.codigo := hprop e.codigo hallado hb
  have hcont : Mapa.contiene e.codigo s.productos_codigo = true := by
    simp [Mapa.contiene, hb]
  rw [modificarProducto_some s e hallado hb]
  refine ⟨rfl, rfl, ?_, map_codigo_sustituir _ _ _ hcod, Mapa.buscar_asignar_self _ _ _,
    fun c hc => Mapa.buscar_asignar_ne _ _ _ _ hc, ?_⟩
  · simp [sustituir]
  · simp [Mapa.asignar, hcont, Mapa.claves_reemplazar]

theorem modificarProducto_marco_witness :
    ClavesPropias ejDos ∧
    Mapa.buscar ejCambio.codigo ejDos.productos_codigo = some (ejProducto "P100" "CPU") ∧
    (modificarProducto ejDos ejCambio).1.productos =
      ejDos.productos.map (fun q =>
        if q.codigo = ejCambio.codigo then
          productoModificado (ejProducto "P100" "CPU") ejCambio else q) ∧
    Mapa.buscar ejCambio.codigo (modificarProducto ejDos ejCambio).1.productos_codigo =
      some (productoModificado (ejProducto "P100" "CPU") ejCambio) ∧
    productoModificado (ejProducto "P100" "CPU") ejCambio = ejP100Cambiado := by
  have hprop : ClavesPropias ejDos :=
    clavesPropias_agregarProducto ejIndeterminado ejP100 ejDos (ejEntrada ["P200"] "GPU")
      (ejSalida 0)
      (clavesPropias_agregarProducto ejIndeterminado ejInicio ejP100
        (ejEntrada ["P100"] "CPU") (ejSalida 0)
        (by intro c p h; simp [ejInicio, Tienda.vacia, Mapa.buscar] at h) (by decide))
      (by decide)
  have hb : Mapa.buscar ejCambio.codigo ejDos.productos_codigo =
      some (ejProducto "P100" "CPU") := by decide
  have h := modificarProducto_marco ejDos ejCambio (ejProducto "P100" "CPU") hprop hb
  exact ⟨hprop, hb, h.2.1, h.2.2.2.2.1, by decide⟩

/-! ## The bound on the passes of a read loop is never reached -/

theorem length_dropWhile_le {α : Type} (p : α → Bool) (l : List α) :
    (l.dropWhile p).length ≤ l.length :=
  (List.dropWhile_sublist p).length_le

theorem leerCadena_consume (s : List Char) (t : String) (r : List Char)
    (h : leerCadena s = some (t, r)) : r.length < s.length := by
  unfold leerCadena at h
  have hs := length_dropWhile_le esEspacio s
  cases hd : saltarEspacios s with
  | nil => simp [hd] at h
  | cons c resto =>
    simp only [hd, Option.some.injEq, Prod.mk.injEq] at h
    have h1 := length_dropWhile_le (fun x => !esEspacio x) resto
    have h2 : (saltarEspacios s).length = resto.length + 1 := by rw [hd]; rfl
    have h3 : (saltarEspacios s).length ≤ s.length := hs
    rw [← h.2]
    omega

theorem leerDigitos_consume (s : List Char) (n : Nat) (r : List Char)
    (h : leerDigitos s = some (n, r)) : r.length ≤ s.length := by
  unfold leerDigitos at h
  split at h
  · simp at h
  · simp only [Option.some.injEq, Prod.mk.injEq] at h
    rw [← h.2]
    exact length_dropWhile_le esDigito s

theorem leerNumero_consume (s : List Char) (n : Int) (r : List Char)
    (h : leerNumero s = some (n, r)) : r.length ≤ s.length := by
  unfold leerNumero at h
  have hs : (saltarEspacios s).length ≤ s.length := length_dropWhile_le esEspacio s
  cases hd : saltarEspacios s with
  | nil => simp [hd] at h
  | cons c resto =>
    have h2 : (saltarEspacios s).length = resto.length + 1 := by rw [hd]; rfl
    simp only [hd] at h
    split at h
    · split at h
      · simp at h
      · rename_i n' r' hdig
        simp only [Option.some.injEq, Prod.mk.injEq] at h
        have := leerDigitos_consume _ _ _ hdig
        rw [← h.2]; omega
    · split at h
      · split at h
        · simp at h
        · rename_i n' r' hdig
          simp only [Option.some.injEq, Prod.mk.injEq] at h
          have := leerDigitos_consume _ _ _ hdig
          rw [← h.2]; omega
      · split at h
        · simp at h
        · rename_i n' r' hdig
          simp only [Option.some.injEq, Prod.mk.injEq] at h
          have := leerDigitos_consume _ _ _ hdig
          simp only [List.length_cons] at this
          rw [← h.2]; omega

theorem leerEntero_consume (s : List Char) (n : Int) (r : List Char)
    (h : leerEntero s = some (n, r)) : r.length ≤ s.length := by
  unfold leerEntero at h
  cases hn : leerNumero s with
  | none => simp [hn] at h
  | some p =>
    obtain ⟨n', r'⟩ := p
    simp only [hn] at h
    split at h
    · simp only [Option.some.injEq, Prod.mk.injEq] at h
      rw [← h.2]; exact leerNumero_consume _ _ _ hn
    · simp at h

theorem leerBool_consume (s : List Char) (b : Bool) (r : List Char)
    (h : leerBool s = some (b, r)) : r.length ≤ s.length := by
  unfold leerBool at h
  cases hn : leerNumero s with
  | none => simp [hn] at h
  | some p =>
    obtain ⟨n', r'⟩ := p
    simp only [hn] at h
    have := leerNumero_consume _ _ _ hn
    split at h
    · simp only [Option.some.injEq, Prod.mk.injEq] at h
      rw [← h.2]; exact this
    · split at h
      · simp only [Option.some.injEq, Prod.mk.injEq] at h
        rw [← h.2]; exact this
      · simp at h

theorem leerFlotante_consume (num : Numerico) (hnum : num.Consume) (s : List Char)
    (x : Flotante) (r : List Char) (h : leerFlotante num s = some (x, r)) :
    r.length ≤ s.length :=
  Nat.le_trans (hnum.1 _ _ _ h) (length_dropWhile_le esEspacio s)

theorem leerDoble_consume (num : Numerico) (hnum : num.Consume) (s : List Char)
    (x : Doble) (r : List Char) (h : leerDoble num s = some (x, r)) :
    r.length ≤ s.length :=
  Nat.le_trans (hnum.2 _ _ _ h) (length_dropWhile_le esEspacio s)

/-- With more passes allowed than the stream has characters, the read loop
yields the same records: the bound of `registrosDe` is never what stops it. -/
theorem leerRegistros_combustible {α : Type} (leer : List Char → Option (α × List Char))
    (hleer : ∀ s x r, leer s = some (x, r) → r.length < s.length) :
    ∀ (n : Nat) (s : List Char), s.length ≤ n →
      leerRegistros leer n s = leerRegistros leer s.length s := by
  have key : ∀ (n m : Nat) (s : List Char), s.length ≤ n → s.length ≤ m →
      leerRegistros leer n s = leerRegistros leer m s := by
    intro n
    induction n with
    | zero =>
      intro m s hn _
      have hs : s = [] := List.length_eq_zero.mp (Nat.le_zero.mp hn)
      subst hs
      cases m with
      | zero => rfl
      | succ m =>
        cases hl : leer [] with
        | none => simp [leerRegistros, hl]
        | some p =>
          obtain ⟨x, r⟩ := p
          have := hleer [] x r hl
          simp at this
    | succ n ih =>
      intro m s hn hm
      cases m with
      | zero =>
        have hs : s = [] := List.length_eq_zero.mp (Nat.le_zero.mp hm)
        subst hs
        cases hl : leer [] with
        | none => simp [leerRegistros, hl]
        | some p =>
          obtain ⟨x, r⟩ := p
          have := hleer [] x r hl
          simp at this
      | succ m =>
        cases hl : leer s with
        | none => simp [leerRegistros, hl]
        | some p =>
          obtain ⟨x, r⟩ := p
          have hlt := hleer s x r hl
          simp only [leerRegistros, hl]
          rw [ih m r (by omega) (by omega)]
  intro n s hn
  exact key n s.length s hn (Nat.le_refl _)

theorem leerProducto_consume (num : Numerico) (hnum : num.Consume) (u : Indeterminado)
    (s : List Char) (x : Producto) (r : List Char)
    (h : leerProducto num u s = some (x, r)) : r.length < s.length := by
  rcases h1 : leerCadena s with _ | ⟨a1, s1⟩
  · simp [leerProducto, h1] at h
  rcases h2 : leerCadena s1 with _ | ⟨a2, s2⟩
  · simp [leerProducto, h1, h2] at h
  rcases h3 : leerFlotante num s2 with _ | ⟨a3, s3⟩
  · simp [leerProducto, h1, h2, h3] at h
  rcases h4 : leerEntero s3 with _ | ⟨a4, s4⟩
  · simp [leerProducto, h1, h2, h3, h4] at h
  rcases h5 : leerCadena s4 with _ | ⟨a5, s5⟩
  · simp [leerProducto, h1, h2, h3, h4, h5] at h
  rcases h6 : leerCadena s5 with _ | ⟨a6, s6⟩
  · simp [leerProducto, h1, h2, h3, h4, h5, h6] at h
  rcases h7 : leerCadena s6 with _ | ⟨a7, s7⟩
  · simp [leerProducto, h1, h2, h3, h4, h5, h6, h7] at h
  rcases h8 : leerBool s7 with _ | ⟨a8, s8⟩
  · simp [leerProducto, h1, h2, h3, h4, h5, h6, h7, h8] at h
  simp only [leerProducto, h1, h2, h3, h4, h5, h6, h7, h8, Option.some.injEq,
    Prod.mk.injEq] at h
  have e1 := leerCadena_consume _ _ _ h1
  have e2 := leerCadena_consume _ _ _ h2
  have e3 := leerFlotante_consume num hnum _ _ _ h3
  have e4 := leerEntero_consume _ _ _ h4
  have e5 := leerCadena_consume _ _ _ h5
  have e6 := leerCadena_consume _ _ _ h6
  have e7 := leerCadena_consume _ _ _ h7
  have e8 := leerBool_consume _ _ _ h8
  rw [← h.2]
  omega

/-- The records that `cargarInformacion` reads from a products file are those
of the read loop run without a bound on its passes: allowing more passes than
the file has characters changes nothing. -/
theorem registrosDe_productos_sin_cota (num : Numerico) (hnum : num.Consume)
    (u : Indeterminado) (texto : List Char) (n : Nat) (hn : texto.length ≤ n) :
    leerRegistros (leerProducto num u) n texto =
      registrosDe (leerProducto num u) (some texto) :=
  leerRegistros_combustible _ (leerProducto_consume num hnum u) n texto hn


end TiendaComponentes
